import Mathlib

/-!
# Verification of the smartresumefix extraction/rendering core

This file embeds the resume-improvement core of `src/server.js`
(`improveResume`, lines 60-154, and `renderHtmlFromAiText`, lines
156-196) together with the payment-gated `/api/generate` handler
(lines 246-307), and proves or refutes the frozen claims about them.

Strings are modelled as lists of characters (`Str`).  Every JavaScript
regular expression the source uses is embedded as an executable
backtracking matcher with the exact leftmost-match, greedy/lazy and
capture semantics of the original pattern; the embedding of each
matcher is annotated with the regex it implements.  JavaScript's `\s`
class is modelled by the ASCII whitespace characters, which are the
only whitespace characters the claims exercise.
-/

namespace SmartResumeFix

/-- Program strings are modelled as lists of characters. -/
abbrev Str := List Char

/-- Conversion from Lean string literals to the model type. -/
def str (s : String) : Str := s.data

/-- JavaScript `\s` (whitespace class), restricted to ASCII. -/
def isWSB (c : Char) : Bool :=
  c == ' ' || c == '\t' || c == '\n' || c == '\r' || c == '\x0b' || c == '\x0c'

/-- The class `[A-Z]`. -/
def isUpperB (c : Char) : Bool := decide ('A' ≤ c ∧ c ≤ 'Z')

/-- The class `[a-z]`. -/
def isLowerB (c : Char) : Bool := decide ('a' ≤ c ∧ c ≤ 'z')

/-- The class `[A-Za-z]`. -/
def isLetterB (c : Char) : Bool := isUpperB c || isLowerB c

/-- The class `[0-9]` (`\d`). -/
def isDigitB (c : Char) : Bool := decide ('0' ≤ c ∧ c ≤ '9')

/-- ASCII lower-casing of one character (what the `i` regex flag uses
on the character ranges occurring in the source). -/
def lowerC (c : Char) : Char :=
  if 'A' ≤ c ∧ c ≤ 'Z' then Char.ofNat (c.toNat + 32) else c

/-- ASCII lower-casing of a string. -/
def lowerS (s : Str) : Str := s.map lowerC

/-- Boolean prefix test. -/
def prefixB : Str → Str → Bool
  | [], _ => true
  | _ :: _, [] => false
  | a :: as, b :: bs => a == b && prefixB as bs

/-- Case-insensitive prefix test (via ASCII lower-casing). -/
def ciPrefixB (t s : Str) : Bool := prefixB (lowerS t) (lowerS s)

/-- Boolean substring test (JavaScript `String.prototype.includes`). -/
def containsB : Str → Str → Bool
  | [], ned => prefixB ned []
  | c :: rest, ned => prefixB ned (c :: rest) || containsB rest ned

/-- Length of the run of characters satisfying `p` at the front. -/
def runLen (p : Char → Bool) : Str → Nat
  | [] => 0
  | c :: rest => if p c then runLen p rest + 1 else 0

/-- JavaScript `String.prototype.trim`, left half. -/
def trimL (s : Str) : Str := s.dropWhile isWSB

/-- JavaScript `String.prototype.trim`, right half. -/
def trimR (s : Str) : Str := (s.reverse.dropWhile isWSB).reverse

/-- JavaScript `String.prototype.trim`. -/
def jsTrim (s : Str) : Str := trimR (trimL s)

/-- JavaScript `String.prototype.split` on a single-character class:
splitting on every character satisfying `p`, keeping empty pieces. -/
def splitAny (p : Char → Bool) : Str → List Str
  | [] => [[]]
  | c :: rest =>
    if p c then [] :: splitAny p rest
    else
      match splitAny p rest with
      | h :: t => (c :: h) :: t
      | [] => [[c]]

/-! ## The name matcher

`server.js` line 67: `resumeText.match(/(?:Name|name)[\s:]*([A-Za-z\s]+?)(?:\n|,|$)/)`.
The label alternation is case sensitive.  After the label, `[\s:]*` is
greedy (backtracking one character at a time), the capture
`[A-Za-z\s]+?` is lazy (at least one character, extended only until
the terminator `\n`, `,` or end of input applies), and at a failed
start position the engine advances one character. -/

/-- The capture class `[A-Za-z\s]` of the name regex. -/
def isNameClassB (c : Char) : Bool := isLetterB c || isWSB c

/-- The class `[\s:]` following the name/section labels. -/
def isWCB (c : Char) : Bool := isWSB c || c == ':'

/-- Lazy continuation of the name capture after its first character:
stop at the first terminator (`\n`, `,` or end), otherwise the next
character must stay in the capture class. -/
def nameCapGo : Str → Option Str
  | [] => some []
  | c :: rest =>
    if c == '\n' || c == ',' then some []
    else if isNameClassB c then (nameCapGo rest).map (c :: ·)
    else none

/-- The lazy capture `([A-Za-z\s]+?)(?:\n|,|$)`: at least one class
character, then the lazy continuation. -/
def nameCapScan : Str → Option Str
  | [] => none
  | c :: rest => if isNameClassB c then (nameCapGo rest).map (c :: ·) else none

/-- Backtracking of the greedy `[\s:]*`: try the largest consumed
amount `t` first, giving back one character at a time. -/
def nameBack (cs : Str) : Nat → Option Str
  | 0 => nameCapScan cs
  | t + 1 =>
    match nameCapScan (cs.drop (t + 1)) with
    | some cap => some cap
    | none => nameBack cs t

/-- One match attempt of the name regex tail, `cs` being the input
just after the four-character label. -/
def nameAttempt (cs : Str) : Option Str := nameBack cs (runLen isWCB cs)

/-- Leftmost match of the whole name regex; returns the capture. -/
def nameSearch : Str → Option Str
  | [] => none
  | c :: rest =>
    if prefixB (str "Name") (c :: rest) || prefixB (str "name") (c :: rest) then
      match nameAttempt ((c :: rest).drop 4) with
      | some cap => some cap
      | none => nameSearch rest
    else nameSearch rest

/-- Lines 66-70: `let name = 'Applicant'; if (nameMatch && nameMatch[1])
name = nameMatch[1].trim();`. -/
def extractName (text : Str) : Str :=
  match nameSearch text with
  | some cap => if cap = [] then str "Applicant" else jsTrim cap
  | none => str "Applicant"

/-! ## The email matcher

Line 74: `/([a-zA-Z0-9._%+-]+@[a-zA-Z0-9.-]+\.[a-zA-Z]{2,})/`.
The local part is a maximal class run (no shorter run can be followed
by `@` since `@` is outside the class); the domain backtracks to place
the literal dot, rightmost position first; the final `[a-zA-Z]{2,}` is
greedy with nothing after it. -/

/-- The local-part class `[a-zA-Z0-9._%+-]`. -/
def isLocalB (c : Char) : Bool :=
  isLetterB c || isDigitB c || c == '.' || c == '_' || c == '%' || c == '+' || c == '-'

/-- The domain class `[a-zA-Z0-9.-]`. -/
def isDomB (c : Char) : Bool := isLetterB c || isDigitB c || c == '.' || c == '-'

/-- One placement try of the literal dot at index `p` of the domain
run: requires `.` there and at least two letters after it; consumes
the maximal letter run. -/
def edTry (rest : Str) (p : Nat) : Option Nat :=
  if rest.get? p = some '.' ∧ 2 ≤ runLen isLetterB (rest.drop (p + 1)) then
    some (p + 1 + runLen isLetterB (rest.drop (p + 1)))
  else none

/-- Dot placements from index `p` downwards (the greedy domain part
backtracks from the rightmost viable dot); index 0 is invalid because
the domain part needs at least one character. -/
def edGo (rest : Str) : Nat → Option Nat
  | 0 => none
  | p + 1 =>
    match edTry rest (p + 1) with
    | some k => some k
    | none => edGo rest p

/-- One match attempt of the email regex at the start of `cs`;
returns the number of characters matched. -/
def emailMatchAt (cs : Str) : Option Nat :=
  let lr := runLen isLocalB cs
  if lr = 0 then none
  else if (cs.drop lr).head? = some '@' then
    let rest := cs.drop (lr + 1)
    (edGo rest (runLen isDomB rest - 1)).map (fun dk => lr + 1 + dk)
  else none

/-- Leftmost email match; the capture is the whole matched span. -/
def emailSearch : Str → Option Str
  | [] => none
  | c :: rest =>
    match emailMatchAt (c :: rest) with
    | some k => some ((c :: rest).take k)
    | none => emailSearch rest

/-! ## The phone matcher

Line 78: `/(\+?\d{1,3}[-.\s]?\d{1,4}[-.\s]?\d{1,4}[-.\s]?\d{1,9})/`.
All quantifiers are greedy; the backtracking search is a depth-first
walk over the bounded choice lists below, larger consumption first. -/

/-- The separator class `[-.\s]`. -/
def isSepB (c : Char) : Bool := c == '-' || c == '.' || isWSB c

/-- Choices of `\+?` in backtracking order. -/
def plusOpts : Str → List (Nat × Str)
  | [] => [(0, [])]
  | c :: rest => if c = '+' then [(1, rest), (0, c :: rest)] else [(0, c :: rest)]

/-- Choices of `\d{1,mx}` in backtracking order (largest first). -/
def digOpts (cs : Str) (mx : Nat) : List (Nat × Str) :=
  let r := min (runLen isDigitB cs) mx
  (List.range r).map (fun i => (r - i, cs.drop (r - i)))

/-- Choices of `[-.\s]?` in backtracking order. -/
def sepOpts : Str → List (Nat × Str)
  | [] => [(0, [])]
  | c :: rest => if isSepB c then [(1, rest), (0, c :: rest)] else [(0, c :: rest)]

/-- One match attempt of the phone regex at the start of `cs`;
returns the number of characters matched. -/
def phoneMatchAt (cs : Str) : Option Nat :=
  (plusOpts cs).findSome? fun a =>
  (digOpts a.2 3).findSome? fun b =>
  (sepOpts b.2).findSome? fun c =>
  (digOpts c.2 4).findSome? fun d =>
  (sepOpts d.2).findSome? fun e =>
  (digOpts e.2 4).findSome? fun f =>
  (sepOpts f.2).findSome? fun g =>
  (digOpts g.2 9).head?.map fun h =>
    a.1 + b.1 + c.1 + d.1 + e.1 + f.1 + g.1 + h.1

/-- Leftmost phone match; the capture is the whole matched span. -/
def phoneSearch : Str → Option Str
  | [] => none
  | c :: rest =>
    match phoneMatchAt (c :: rest) with
    | some k => some ((c :: rest).take k)
    | none => phoneSearch rest

/-- Lines 73-79: email first, then phone, joined with `" | "` when
both are present. -/
def extractContact (text : Str) : Str :=
  let contact := (emailSearch text).getD []
  match phoneSearch text with
  | some ph => if contact = [] then ph else contact ++ str " | " ++ ph
  | none => contact

/-! ## The section matchers

Lines 83, 94, 104, 121, 131: patterns of the shape
`/(?:Label|label)[\s:]*([^]*?)(?=\n(?:Stop1|Stop2|...|$))/i` (for the
summary the lookahead is just `(?=\n)`).  `[^]` matches any character,
so the lazy capture stops at the first position where the lookahead
holds; the greedy `[\s:]*` backtracks one character at a time; a start
position whose attempt fails is abandoned and the search moves one
character to the right. -/

/-- Lazy `([^]*?)` up to the first position where `look` holds
(checked before consuming, so zero-width captures are possible);
`none` when no position up to and including the end satisfies it. -/
def lazyScan (look : Str → Bool) : Str → Option Str
  | [] => if look [] then some [] else none
  | c :: rest =>
    if look (c :: rest) then some []
    else (lazyScan look rest).map (c :: ·)

/-- Backtracking of the greedy `[\s:]*` before a lazy capture. -/
def secBack (look : Str → Bool) (cs : Str) : Nat → Option Str
  | 0 => lazyScan look cs
  | t + 1 =>
    match lazyScan look (cs.drop (t + 1)) with
    | some r => some r
    | none => secBack look cs t

/-- One attempt of `[\s:]*([^]*?)(?=...)`, `cs` being the input just
after the label. -/
def secAttempt (look : Str → Bool) (cs : Str) : Option Str :=
  secBack look cs (runLen isWCB cs)

/-- Leftmost match of a label alternation (case insensitive, `i` flag)
followed by `[\s:]*([^]*?)(?=...)`; returns the raw capture. -/
def secSearch (labs : List Str) (look : Str → Bool) : Str → Option Str
  | [] => none
  | c :: rest =>
    match labs.findSome? (fun lab =>
        if ciPrefixB lab (c :: rest) then some lab.length else none) with
    | some n =>
      match secAttempt look ((c :: rest).drop n) with
      | some raw => some raw
      | none => secSearch labs look rest
    | none => secSearch labs look rest

/-- The lookahead `(?=\n(?:Stop1|...|$))` (under the `i` flag the stop
labels are matched case-insensitively; `$` is end of input). -/
def stopLookFor (stops : List Str) : Str → Bool
  | [] => false
  | c :: rest =>
    if c = '\n' then rest.isEmpty || stops.any (fun s => ciPrefixB s rest) else false

/-- The lookahead `(?=\n)` of the summary pattern. -/
def nlLook : Str → Bool
  | [] => false
  | c :: _ => c == '\n'

/-- The skills stop labels of line 83. -/
def skillsStops : List Str :=
  [str "Experience", str "Education", str "Languages", str "Objective"]

/-- Lines 82-90 up to `.slice(0, 12)`: the cleaned skills entries. -/
def extractSkillsList (text : Str) : List Str :=
  let raw := (secSearch [str "Skills"] (stopLookFor skillsStops) text).getD []
  ((((splitAny (fun c => c == ',' || c == ';' || c == '\n') raw).map jsTrim).filter
    (fun s => !s.isEmpty)).take 12)

/-- Lines 82-90: the skills field (entries joined with `"\n• "`). -/
def extractSkills (text : Str) : Str :=
  List.intercalate (str "\n• ") (extractSkillsList text)

/-- The education stop labels of line 94. -/
def eduStops : List Str := [str "Skills", str "Experience", str "Languages"]

/-- Lines 92-100: education lines (untrimmed), blank lines dropped,
first three kept, joined with `"\n• "`. -/
def extractEducation (text : Str) : Str :=
  let raw := (secSearch [str "Education"] (stopLookFor eduStops) text).getD []
  List.intercalate (str "\n• ")
    (((splitAny (fun c => c == '\n') raw).filter (fun s => !(jsTrim s).isEmpty)).take 3)

/-- The experience stop labels of line 104. -/
def expStops : List Str := [str "Education", str "Skills", str "Languages"]

/-- The split `/\n(?=[A-Z])/g` of line 107: the newline is consumed,
the upper-case letter starts the next piece. -/
def splitNlUpper : Str → List Str
  | [] => [[]]
  | c :: rest =>
    if c == '\n' && (match rest with | d :: _ => isUpperB d | [] => false) then
      [] :: splitNlUpper rest
    else
      match splitNlUpper rest with
      | h :: t => (c :: h) :: t
      | [] => [[c]]

/-- Lines 110-116: bullet formatting of one experience block. -/
def expBlockFmt (exp : Str) : Str :=
  let lines := splitAny (fun c => c == '\n') (jsTrim exp)
  List.intercalate (str "\n")
    (lines.mapIdx fun i line =>
      if i = 0 ∧ line ≠ [] then str "• " ++ line
      else if prefixB (str "•") line then line
      else str "  - " ++ line)

/-- Lines 102-117: the experience field. -/
def extractExperience (text : Str) : Str :=
  let raw := (secSearch [str "Experience"] (stopLookFor expStops) text).getD []
  List.intercalate (str "\n")
    ((((splitNlUpper raw).filter (fun s => !(jsTrim s).isEmpty)).take 5).map expBlockFmt)

/-- The languages stop labels of line 121. -/
def langStops : List Str := [str "Skills", str "Experience", str "Education"]

/-- Lines 119-127: the languages field. -/
def extractLanguages (text : Str) : Str :=
  let raw := (secSearch [str "Languages"] (stopLookFor langStops) text).getD []
  List.intercalate (str ", ")
    ((((splitAny (fun c => c == ',' || c == ';' || c == '\n') raw).map jsTrim).filter
      (fun s => !s.isEmpty)))

/-- Lines 131-132: the summary capture, pattern
`/(?:Objective|objective|Summary|summary)[\s:]*([^]*?)(?=\n)/i`
(the two alternations are the same label case-insensitively). -/
def summaryCap (text : Str) : Option Str :=
  secSearch [str "Objective", str "Summary"] nlLook text

/-- Lines 129-141: synthesised or extracted summary plus the career
goal sentence. -/
def extractSummary (text role : Str) : Str :=
  let dflt := str "Dedicated professional with strong expertise in "
    ++ (if role = [] then str "multiple areas" else role) ++ str "."
  let base :=
    match summaryCap text with
    | some cap => if 5 < cap.length then jsTrim cap else dflt
    | none => dflt
  if !containsB base (str "role") ∧ role ≠ [] then
    base ++ str " Seeking " ++ role
      ++ str " role to apply technical skills and contribute to organizational growth."
  else base

/-! ## The renderer (lines 143-153) -/

/-- Lines 143-153: the labeled intermediate text.  `NAME` and
`PROFESSIONAL SUMMARY` are always written (`name || 'Applicant'`);
the other labels are written only when their value is non-empty
(JavaScript truthiness of a string). -/
def buildResume (name contact summary skills experience education languages : Str) : Str :=
  str "NAME: " ++ (if name = [] then str "Applicant" else name) ++ str "\n"
    ++ (if contact = [] then [] else str "CONTACT: " ++ contact ++ str "\n")
    ++ str "PROFESSIONAL SUMMARY: " ++ summary ++ str "\n"
    ++ (if skills = [] then [] else str "SKILLS: " ++ skills ++ str "\n")
    ++ (if experience = [] then [] else str "WORK EXPERIENCE: " ++ experience ++ str "\n")
    ++ (if education = [] then [] else str "EDUCATION: " ++ education ++ str "\n")
    ++ (if languages = [] then [] else str "LANGUAGES: " ++ languages ++ str "\n")

/-- Lines 60-154: `improveResume`.  Throws (models `throw new Error`)
exactly when the input is empty or whitespace-only; otherwise extracts
the fields and builds the labeled text.  `resumeType` is accepted but
never read by the source. -/
def improveResume (resumeText resumeType targetRole : Str) : Except Str Str :=
  if resumeText = [] ∨ jsTrim resumeText = [] then
    Except.error (str "Resume text cannot be empty")
  else
    Except.ok (buildResume (extractName resumeText) (extractContact resumeText)
      (extractSummary resumeText targetRole) (extractSkills resumeText)
      (extractExperience resumeText) (extractEducation resumeText)
      (extractLanguages resumeText))

/-! ## The markup re-extractor (lines 156-196) -/

/-- `[A-Z]+:` after the newline of the lookahead `(?=\n[A-Z]+:|$)`
(case-insensitive under the `i` flag, hence any letters): at least one
letter, then further letters until a colon; equivalent to the
backtracking semantics because a letter can never match the colon. -/
def lrcGo : Str → Bool
  | [] => false
  | c :: rest => if c == ':' then true else if isLetterB c then lrcGo rest else false

/-- At least one letter followed (after more letters) by a colon. -/
def lrc : Str → Bool
  | [] => false
  | c :: rest => isLetterB c && lrcGo rest

/-- The lookahead `(?=\n[A-Z]+:|$)` of `getSection` (line 159); the
`$` alternative is bare end of input. -/
def capsLook : Str → Bool
  | [] => true
  | c :: rest => if c = '\n' then lrc rest else false

/-- The match of `` `${label}:[\s\S]*?(?=\n[A-Z]+:|$)` `` (line 159) at
the leftmost case-insensitive occurrence of `tok = label ++ ":"`;
returns the lazy capture after the token (the source then strips the
leading token from `match[0]`, which is exactly this capture). -/
def getSecRaw (tok : Str) : Str → Option Str
  | [] => none
  | c :: rest =>
    if ciPrefixB tok (c :: rest) then
      match lazyScan capsLook ((c :: rest).drop tok.length) with
      | some raw => some raw
      | none => getSecRaw tok rest
    else getSecRaw tok rest

/-- Lines 158-162: `getSection`. -/
def getSection (label : Str) (aiText : Str) : Str :=
  match getSecRaw (label ++ str ":") aiText with
  | some raw => jsTrim raw
  | none => []

/-- The `<title>` block of the template (line 175). -/
def titleBlk (name : Str) : Str := str "<title>" ++ name ++ str " - Resume</title>"

/-- The `<h1>` block of the template (line 187). -/
def h1Blk (name : Str) : Str := str "<h1>" ++ name ++ str "</h1>"

/-- The contact `<div>` of the template (line 188). -/
def contactBlk (contact : Str) : Str :=
  str "<div class=\"contact\">" ++ contact ++ str "</div>"

/-- One section block of the template (lines 189-192). -/
def sectionBlk (heading content : Str) : Str :=
  str "<div class=\"section\"><h2>" ++ heading ++ str "</h2><pre>" ++ content
    ++ str "</pre></div>"

/-- The full page template of lines 170-195 with the six values
substituted. -/
def htmlShell (name contact summary experience education skills : Str) : Str :=
  str "\n  <!doctype html>\n  <html>\n  <head>\n    <meta charset=\"utf-8\"/>\n    "
    ++ titleBlk name
    ++ str "\n    <style>\n      body\x7bfont-family:Arial,Helvetica,sans-serif; max-width:800px; margin:24px auto; color:#111\x7d\n      h1\x7bfont-size:20px;margin:0\x7d\n      .contact\x7bmargin-bottom:14px;color:#555\x7d\n      .section\x7bmargin-top:12px\x7d\n      .section h2\x7bfont-size:14px;border-bottom:1px solid #eee;padding-bottom:6px;color:#333\x7d\n      .bullet\x7bmargin-left:18px\x7d\n      pre\x7bwhite-space:pre-wrap;font-family:inherit\x7d\n    </style>\n  </head>\n  <body>\n    "
    ++ h1Blk name
    ++ str "\n    " ++ contactBlk contact
    ++ str "\n    " ++ sectionBlk (str "Professional Summary") summary
    ++ str "\n    " ++ sectionBlk (str "Experience") experience
    ++ str "\n    " ++ sectionBlk (str "Education") education
    ++ str "\n    " ++ sectionBlk (str "Skills") skills
    ++ str "\n  </body>\n  </html>\n  "

/-- Lines 156-196: `renderHtmlFromAiText`.  Looks up exactly the six
labels NAME, CONTACT, SUMMARY, EXPERIENCE, EDUCATION, SKILLS; only
NAME has a non-empty default. -/
def renderHtmlFromAiText (aiText : Str) : Str :=
  let name := (fun v => if v = [] then str "Applicant" else v) (getSection (str "NAME") aiText)
  let contact := getSection (str "CONTACT") aiText
  let summary := getSection (str "SUMMARY") aiText
  let experience := getSection (str "EXPERIENCE") aiText
  let education := getSection (str "EDUCATION") aiText
  let skills := getSection (str "SKILLS") aiText
  htmlShell name contact summary experience education skills

/-! ## The `/api/generate` handler (lines 246-307)

The network, PDF engine and mail transport are external collaborators;
they enter the model as oracle parameters.  The handler's observable
effects are reified as an event trace in program order. -/

/-- Outcome of the payment-verification fetch (lines 253-261): a JSON
status, a response without usable JSON, or a thrown error (caught and
logged by the source, leaving `verified` false). -/
inductive VerifyOutcome
  | status (s : Str)
  | noJson
  | threw

/-- Line 258: `j && (j.status === 'captured' || j.status === 'authorized')`. -/
def verifiedB : VerifyOutcome → Bool
  | .status s => s == str "captured" || s == str "authorized"
  | .noJson => false
  | .threw => false

/-- The handler's observable effects, in program order. -/
inductive GenEvent
  | verifyCall
  | extractDone
  | htmlDone
  | pdfDone
  | fileWrite
  | emailSend
deriving DecidableEq

/-- The request body fields the handler reads (line 248). -/
structure GenRequest where
  payment_id : Str
  resume_text : Str
  resume_type : Str
  email : Str
  target_role : Str

/-- The JSON response: HTTP status, success flag, message. -/
structure GenResponse where
  statusCode : Nat
  success : Bool
  message : Str
deriving DecidableEq

/-- Lines 299-305: the user-facing message of the outer catch. -/
def userMessage (err : Str) : Str :=
  if containsB err (str "empty") then str "Please paste your resume text to proceed."
  else if containsB err (str "Payment not verified") then
    str "Payment verification failed. Please try again."
  else str "Resume generation failed. Please try again."

/-- Lines 246-307: the `/api/generate` handler.  `verify` is the
payment gateway's answer, `pdfOk` whether the PDF engine succeeds,
`smtpConfigured` whether SMTP is configured.  Returns the response and
the trace of effects. -/
def generateHandler (verify : VerifyOutcome) (pdfOk smtpConfigured : Bool)
    (req : GenRequest) : GenResponse × List GenEvent :=
  if req.payment_id = [] ∨ req.resume_text = [] then
    (⟨400, false, str "Missing payment_id or resume_text"⟩, [])
  else if verifiedB verify = false then
    (⟨400, false, str "Payment not verified"⟩, [.verifyCall])
  else
    match improveResume req.resume_text req.resume_type req.target_role with
    | .error e => (⟨500, false, userMessage e⟩, [.verifyCall])
    | .ok aiText =>
      let _html := renderHtmlFromAiText aiText
      if pdfOk = false then
        (⟨500, false, str "Resume generation failed. Please try again."⟩,
          [.verifyCall, .extractDone, .htmlDone])
      else
        (⟨200, true, str "downloadUrl"⟩,
          [.verifyCall, .extractDone, .htmlDone, .pdfDone, .fileWrite]
            ++ (if smtpConfigured ∧ req.email ≠ [] then [.emailSend] else []))


/-- The part of the labeled text before the PROFESSIONAL SUMMARY line;
it does not depend on the target role. -/
def preSummary (text : Str) : Str :=
  str "NAME: " ++ (if extractName text = [] then str "Applicant" else extractName text)
    ++ str "\n"
    ++ (if extractContact text = [] then []
        else str "CONTACT: " ++ extractContact text ++ str "\n")

/-- The part of the labeled text after the PROFESSIONAL SUMMARY line;
it does not depend on the target role. -/
def postSummary (text : Str) : Str :=
  (if extractSkills text = [] then [] else str "SKILLS: " ++ extractSkills text ++ str "\n")
    ++ (if extractExperience text = [] then []
        else str "WORK EXPERIENCE: " ++ extractExperience text ++ str "\n")
    ++ (if extractEducation text = [] then []
        else str "EDUCATION: " ++ extractEducation text ++ str "\n")
    ++ (if extractLanguages text = [] then []
        else str "LANGUAGES: " ++ extractLanguages text ++ str "\n")

/-- The label tokens the markup re-extractor searches for
(lower-cased), plus the renderer's LANGUAGES token. -/
def reTokens : List Str :=
  [str "name:", str "contact:", str "summary:", str "experience:",
   str "education:", str "skills:", str "languages:"]

/-- A value contains no re-extractor label token, case-insensitively. -/
abbrev TokenFree (v : Str) : Prop := ∀ tok ∈ reTokens, ¬ (tok <:+: lowerS v)

/-- A section value that survives the label-based round trip
unchanged in shape: non-empty, single-line, trim-invariant, and free
of label tokens. -/
structure CleanVal (v : Str) : Prop where
  ne : v ≠ []
  oneLine : ∀ c ∈ v, c ≠ '\n'
  trimmed : jsTrim v = v
  tokFree : TokenFree v

/-- The labeled intermediate text produced by the renderer when every
field is non-empty, in the spine shape the scan lemmas consume. -/
def labeledDoc (n c s k e d l : Str) : Str :=
  str "NAME: " ++ (n ++ ('\n' :: (str "CONTACT: " ++ (c ++ ('\n' ::
    (str "PROFESSIONAL SUMMARY: " ++ (s ++ ('\n' :: (str "SKILLS: " ++ (k ++ ('\n' ::
    (str "WORK EXPERIENCE: " ++ (e ++ ('\n' :: (str "EDUCATION: " ++ (d ++ ('\n' ::
    (str "LANGUAGES: " ++ (l ++ str "\n")))))))))))))))))))

/-- The labeled intermediate text produced by the renderer when every
field except languages is non-empty and the languages value is empty,
in the spine shape the scan lemmas consume. -/
def labeledDocNL (n c s k e d : Str) : Str :=
  str "NAME: " ++ (n ++ ('\n' :: (str "CONTACT: " ++ (c ++ ('\n' :: (str "PROFESSIONAL SUMMARY: " ++ (s ++ ('\n' :: (str "SKILLS: " ++ (k ++ ('\n' :: (str "WORK EXPERIENCE: " ++ (e ++ ('\n' :: (str "EDUCATION: " ++ (d ++ str "\n"))))))))))))))))

/-- The renderer's own label tokens (line 144-150). -/
def renderTokens : List Str :=
  [str "NAME:", str "CONTACT:", str "PROFESSIONAL SUMMARY:", str "SKILLS:",
   str "WORK EXPERIENCE:", str "EDUCATION:", str "LANGUAGES:"]

/-- A field value that contains none of the renderer's label tokens. -/
abbrev OutTokenFree (v : Str) : Prop := ∀ t ∈ renderTokens, ¬ (t <:+: v)

end SmartResumeFix

namespace SmartResumeFix

/-! ## Basic facts -/

theorem jsTrim_nil : jsTrim [] = [] := rfl

/-! ## Claim C4 -/

/-- Claim C4: `improveResume` raises the input-validation error exactly
when the input text is empty or whitespace-only; no other input fails
this check.  Instantiating `text` with `""` and `"   "` gives the two
failing examples of the claim. -/
theorem C4_input_validation_iff (text ty role : Str) :
    improveResume text ty role = Except.error (str "Resume text cannot be empty")
      ↔ jsTrim text = [] := by
  unfold improveResume
  by_cases h : jsTrim text = []
  · simp [h]
  · have ht : text ≠ [] := by rintro rfl; exact h rfl
    simp [h, ht]

/-! ## Claim C3 -/

/-- Claim C3: for every non-empty, non-whitespace-only input,
`improveResume` returns normally (the embedding is total, so all
extracted fields are strings and no heuristic raises), and the NAME
value of the returned labeled text is non-empty. -/
theorem C3_total_name_nonempty (text ty role : Str) (h : jsTrim text ≠ []) :
    ∃ nm rest : Str,
      improveResume text ty role = Except.ok (str "NAME: " ++ nm ++ str "\n" ++ rest)
      ∧ nm ≠ [] := by
  have hc : ¬(text = [] ∨ jsTrim text = []) := by
    rintro (rfl | hh)
    · exact h rfl
    · exact h hh
  refine ⟨if extractName text = [] then str "Applicant" else extractName text,
    (if extractContact text = [] then [] else str "CONTACT: " ++ extractContact text ++ str "\n")
      ++ str "PROFESSIONAL SUMMARY: " ++ extractSummary text role ++ str "\n"
      ++ (if extractSkills text = [] then [] else str "SKILLS: " ++ extractSkills text ++ str "\n")
      ++ (if extractExperience text = [] then []
          else str "WORK EXPERIENCE: " ++ extractExperience text ++ str "\n")
      ++ (if extractEducation text = [] then []
          else str "EDUCATION: " ++ extractEducation text ++ str "\n")
      ++ (if extractLanguages text = [] then []
          else str "LANGUAGES: " ++ extractLanguages text ++ str "\n"), ?_, ?_⟩
  · unfold improveResume
    rw [if_neg hc]
    simp [buildResume, List.append_assoc]
  · split
    · decide
    · assumption

/-- Witness for C3 at the concrete input `"hello"`. -/
theorem C3_total_name_nonempty_witness :
    jsTrim (str "hello") ≠ [] ∧
    ∃ nm rest : Str,
      improveResume (str "hello") (str "Modern Professional") []
        = Except.ok (str "NAME: " ++ nm ++ str "\n" ++ rest) ∧ nm ≠ [] :=
  ⟨by decide, C3_total_name_nonempty (str "hello") (str "Modern Professional") [] (by decide)⟩

/-! ## Claim C10 -/


/-- Claim C10: for a fixed input text and resume type, two runs of
`improveResume` that differ only in `targetRole` agree outside the
PROFESSIONAL SUMMARY line: both outputs are the same role-independent
prefix and suffix around their respective summary values. -/
theorem C10_role_affects_only_summary (text ty r1 r2 : Str) (h : jsTrim text ≠ []) :
    improveResume text ty r1
      = Except.ok (preSummary text ++ str "PROFESSIONAL SUMMARY: "
          ++ extractSummary text r1 ++ str "\n" ++ postSummary text)
    ∧ improveResume text ty r2
      = Except.ok (preSummary text ++ str "PROFESSIONAL SUMMARY: "
          ++ extractSummary text r2 ++ str "\n" ++ postSummary text) := by
  have hc : ¬(text = [] ∨ jsTrim text = []) := by
    rintro (rfl | hh)
    · exact h rfl
    · exact h hh
  constructor <;>
    · unfold improveResume
      rw [if_neg hc]
      simp [buildResume, preSummary, postSummary, List.append_assoc]

/-- Witness for C10 at the concrete input `"hello"` and two distinct
roles. -/
theorem C10_role_affects_only_summary_witness :
    jsTrim (str "hello") ≠ [] ∧
    (improveResume (str "hello") (str "Modern Professional") (str "Engineer")
      = Except.ok (preSummary (str "hello") ++ str "PROFESSIONAL SUMMARY: "
          ++ extractSummary (str "hello") (str "Engineer") ++ str "\n"
          ++ postSummary (str "hello"))
    ∧ improveResume (str "hello") (str "Modern Professional") (str "Chef")
      = Except.ok (preSummary (str "hello") ++ str "PROFESSIONAL SUMMARY: "
          ++ extractSummary (str "hello") (str "Chef") ++ str "\n"
          ++ postSummary (str "hello"))) :=
  ⟨by decide, C10_role_affects_only_summary (str "hello") (str "Modern Professional")
    (str "Engineer") (str "Chef") (by decide)⟩

/-! ## Claim C8 -/

/-- Claim C8: a generate request that reaches payment verification and
whose verification does not report `captured` or `authorized` gets the
payment-unverified failure, and neither extraction, rendering nor a
file write happens: the trace is exactly the verification call. -/
theorem C8_unverified_payment_no_artifact (verify : VerifyOutcome) (pdfOk smtp : Bool)
    (req : GenRequest) (hp : req.payment_id ≠ []) (hr : req.resume_text ≠ [])
    (hv : verifiedB verify = false) :
    generateHandler verify pdfOk smtp req
        = (⟨400, false, str "Payment not verified"⟩, [GenEvent.verifyCall])
    ∧ GenEvent.fileWrite ∉ (generateHandler verify pdfOk smtp req).2
    ∧ GenEvent.extractDone ∉ (generateHandler verify pdfOk smtp req).2
    ∧ GenEvent.htmlDone ∉ (generateHandler verify pdfOk smtp req).2 := by
  have hc : ¬(req.payment_id = [] ∨ req.resume_text = []) := by
    rintro (a | b)
    · exact hp a
    · exact hr b
  unfold generateHandler
  rw [if_neg hc, if_pos hv]
  refine ⟨rfl, ?_, ?_, ?_⟩ <;> decide

/-- Witness for C8: a concrete request with a present payment id and
resume text whose verification answered a `failed` status. -/
theorem C8_unverified_payment_no_artifact_witness :
    (str "pay_1" ≠ ([] : Str) ∧ str "resume body" ≠ ([] : Str)
      ∧ verifiedB (VerifyOutcome.status (str "failed")) = false)
    ∧ generateHandler (VerifyOutcome.status (str "failed")) true false
        ⟨str "pay_1", str "resume body", str "Modern Professional", [], []⟩
        = (⟨400, false, str "Payment not verified"⟩, [GenEvent.verifyCall]) :=
  ⟨⟨by decide, by decide, by decide⟩,
    (C8_unverified_payment_no_artifact (VerifyOutcome.status (str "failed")) true false
      ⟨str "pay_1", str "resume body", str "Modern Professional", [], []⟩
      (by decide) (by decide) (by decide)).1⟩

end SmartResumeFix

namespace SmartResumeFix

/-! ## Counterexamples -/

/-- Claim C1 counterexample: the round trip does not recover the
CONTACT section verbatim.  For the record with contact `"j@x.com"`
(all other fields non-empty as written), the re-extractor's CONTACT
lookup returns the contact value with the whole PROFESSIONAL SUMMARY
line appended, because `PROFESSIONAL SUMMARY:` contains a space and is
therefore not recognized by the all-caps label lookahead; the renderer
label `PROFESSIONAL SUMMARY` is also absent from the re-extractor's
vocabulary (which uses `SUMMARY`), so the two vocabularies do not
match. -/
theorem C1_counterexample :
    getSection (str "CONTACT")
        (buildResume (str "John") (str "j@x.com") (str "S.") (str "Go") (str "E")
          (str "BSc") (str "English"))
      = str "j@x.com\nPROFESSIONAL SUMMARY: S."
    ∧ getSection (str "CONTACT")
        (buildResume (str "John") (str "j@x.com") (str "S.") (str "Go") (str "E")
          (str "BSc") (str "English"))
      ≠ str "j@x.com" := by
  constructor
  · rfl
  · decide

set_option maxRecDepth 4000 in
/-- Claim C2 counterexample: the record whose six fields are
`"John  "` (trailing spaces), `"c@x.co"`, `"Sum."`, `"Go"`, `"Exp"`,
`"BSc"` has all six fields non-empty, yet the name value `"John  "` is
not a substring of the rendered markup at all (the re-extractor trims
it to `"John"`), hence not a substring of the title or heading
block. -/
theorem C2_counterexample :
    (str "John  " ≠ ([] : Str) ∧ str "c@x.co" ≠ ([] : Str) ∧ str "Sum." ≠ ([] : Str)
      ∧ str "Go" ≠ ([] : Str) ∧ str "Exp" ≠ ([] : Str) ∧ str "BSc" ≠ ([] : Str))
    ∧ ¬ (str "John  " <:+:
          titleBlk (getSection (str "NAME")
            (buildResume (str "John  ") (str "c@x.co") (str "Sum.") (str "Go")
              (str "Exp") (str "BSc") [])))
    ∧ ¬ (str "John  " <:+:
          h1Blk (getSection (str "NAME")
            (buildResume (str "John  ") (str "c@x.co") (str "Sum.") (str "Go")
              (str "Exp") (str "BSc") []))) := by
  refine ⟨⟨?_, ?_, ?_, ?_, ?_, ?_⟩, ?_, ?_⟩ <;> decide

/-- Claim C5 counterexample: the name label alternation
`(?:Name|name)` is case sensitive, so the all-caps label `NAME:` does
not match and the name falls back to `"Applicant"` instead of
`"John Smith"`. -/
theorem C5_counterexample :
    extractName (str "NAME: John Smith\n") = str "Applicant"
    ∧ str "Applicant" ≠ str "John Smith" := by
  constructor
  · rfl
  · decide

/-- Claim C6 counterexample: when the skills section is the last text
and has no trailing newline, the lookahead
`(?=\n(?:Experience|Education|Languages|Objective|$))` never holds (its
`$` alternative only applies immediately after a newline), so the
skills value is empty instead of the claimed `"Python\n• Go"`. -/
theorem C6_counterexample :
    extractSkills (str "Skills: Python, Go") = []
    ∧ jsTrim (str "Skills: Python, Go") ≠ []
    ∧ ([] : Str) ≠ str "Python\n• Go" := by
  refine ⟨?_, ?_, ?_⟩
  · rfl
  · decide
  · decide

/-- Claim C7 counterexample: for the record whose name value is
`"CONTACT: Bob"` and whose contact value is empty, the label
`CONTACT:` appears in the rendered labeled text even though the
underlying contact field is empty, so "label appears iff its value is
non-empty" fails as stated. -/
theorem C7_counterexample :
    ¬ ((str "CONTACT:" <:+: buildResume (str "CONTACT: Bob") [] (str "s") [] [] [] [])
        ↔ ([] : Str) ≠ []) := by
  intro h
  exact (h.mp (by decide)) rfl

end SmartResumeFix

namespace SmartResumeFix

/-! ## Prefix/infix/lower infrastructure -/

theorem prefixB_iff {t s : Str} : prefixB t s = true ↔ t <+: s := by
  induction t generalizing s with
  | nil => simp [prefixB, List.nil_prefix]
  | cons a as ih =>
    cases s with
    | nil => simp [prefixB]
    | cons b bs =>
      simp [prefixB, List.cons_prefix_cons, ih, Bool.and_eq_true, beq_iff_eq]

theorem containsB_iff {h n : Str} : containsB h n = true ↔ n <:+: h := by
  induction h with
  | nil => simp [containsB, prefixB_iff, List.infix_nil, List.prefix_nil]
  | cons c rest ih =>
    simp [containsB, prefixB_iff, List.infix_cons_iff, ih, Bool.or_eq_true]

theorem lowerS_append (x y : Str) : lowerS (x ++ y) = lowerS x ++ lowerS y :=
  List.map_append lowerC x y

theorem lowerS_length (x : Str) : (lowerS x).length = x.length := List.length_map x lowerC

theorem ciPrefixB_iff {t s : Str} : ciPrefixB t s = true ↔ lowerS t <+: lowerS s := by
  simp [ciPrefixB, prefixB_iff]

/-- Splitting an infix occurrence across an append: the occurrence lies
in the left part, in the right part, or straddles the boundary with a
non-empty suffix of the left part and a non-empty prefix of the right
part. -/
theorem infix_split {p a b : Str} (h : p <:+: a ++ b) :
    p <:+: a ∨ p <:+: b ∨
      ∃ p₁ p₂, p₁ ++ p₂ = p ∧ p₁ ≠ [] ∧ p₂ ≠ [] ∧ p₁ <:+ a ∧ p₂ <+: b := by
  obtain ⟨s, t, hst⟩ := h
  rw [List.append_assoc] at hst
  rcases List.append_eq_append_iff.mp hst with ⟨a2, ha, hpt⟩ | ⟨c2, _, hb⟩
  · rcases List.append_eq_append_iff.mp hpt with ⟨x, ha2, _⟩ | ⟨y, hp, hb⟩
    · left
      exact ⟨s, x, by rw [ha, ha2, List.append_assoc]⟩
    · rcases eq_or_ne a2 [] with rfl | ha2ne
      · right; left
        simp only [List.nil_append] at hp
        exact List.IsPrefix.isInfix ⟨t, by rw [hb, hp]⟩
      · rcases eq_or_ne y [] with rfl | hyne
        · left
          simp only [List.append_nil] at hp
          exact List.IsSuffix.isInfix ⟨s, by rw [ha, hp]⟩
        · right; right
          exact ⟨a2, y, hp.symm, ha2ne, hyne, ⟨s, ha.symm⟩, ⟨t, hb.symm⟩⟩
  · right; left
    exact ⟨c2, t, by rw [hb, List.append_assoc]⟩

theorem getLast?_of_ne_nil {v : Str} (h : v ≠ []) : ∃ c, v.getLast? = some c := by
  cases hv : v.getLast? with
  | some c => exact ⟨c, rfl⟩
  | none => exact absurd (List.getLast?_eq_none_iff.mp hv) h

/-- If the last character of `a` does not occur in `p`, an occurrence
of `p` in `a ++ b` cannot straddle the boundary. -/
theorem not_infix_append_lastChar {p a b : Str} (ha : ¬ p <:+: a) (hb : ¬ p <:+: b)
    (hlast : ∀ c, a.getLast? = some c → c ∉ p) : ¬ p <:+: a ++ b := by
  intro h
  rcases infix_split h with h | h | ⟨p₁, p₂, hp, h1, _, hsuf, _⟩
  · exact ha h
  · exact hb h
  · obtain ⟨t, ht⟩ := hsuf
    obtain ⟨c, hc⟩ := getLast?_of_ne_nil h1
    have hca : a.getLast? = some c := by
      rw [← ht, List.getLast?_append, hc]; rfl
    have hmem : c ∈ p₁ := by
      obtain ⟨ys, rfl⟩ := List.getLast?_eq_some_iff.mp hc
      simp
    exact hlast c hca (List.IsPrefix.subset ⟨p₂, hp⟩ hmem)

/-- If the first character of `b` does not occur in `p`, an occurrence
of `p` in `a ++ b` cannot straddle the boundary. -/
theorem not_infix_append_headChar {p a b : Str} (ha : ¬ p <:+: a) (hb : ¬ p <:+: b)
    (hhead : ∀ c, b.head? = some c → c ∉ p) : ¬ p <:+: a ++ b := by
  intro h
  rcases infix_split h with h | h | ⟨p₁, p₂, hp, _, h2, _, hpre⟩
  · exact ha h
  · exact hb h
  · obtain ⟨t, ht⟩ := hpre
    obtain ⟨c, cs, rfl⟩ := List.exists_cons_of_ne_nil h2
    have hcb : b.head? = some c := by rw [← ht]; rfl
    have hmem : c ∈ (c :: cs : Str) := List.mem_cons_self c cs
    have hsub : (c :: cs : Str) <:+ p := ⟨p₁, hp⟩
    exact hhead c hcb (List.IsSuffix.subset hsub hmem)

/-! ## Trim lemmas -/

theorem trimL_cons_ws {c : Char} {v : Str} (h : isWSB c = true) :
    trimL (c :: v) = trimL v := by
  simp [trimL, List.dropWhile_cons, h]

theorem trimL_cons_not_ws {c : Char} {v : Str} (h : isWSB c = false) :
    trimL (c :: v) = c :: v := by
  simp [trimL, List.dropWhile_cons, h]

theorem trimL_eq_self {v : Str} (h : ∀ c, v.head? = some c → isWSB c = false) :
    trimL v = v := by
  cases v with
  | nil => rfl
  | cons c cs => exact trimL_cons_not_ws (h c rfl)

theorem trimR_eq_self {v : Str} (h : ∀ c, v.getLast? = some c → isWSB c = false) :
    trimR v = v := by
  unfold trimR
  have : v.reverse.dropWhile isWSB = v.reverse := by
    cases hv : v.reverse with
    | nil => rfl
    | cons c cs =>
      have hc : v.getLast? = some c := by rw [← List.head?_reverse, hv]; rfl
      simp [List.dropWhile_cons, h c hc]
  rw [this, List.reverse_reverse]

theorem length_trimL_le (v : Str) : (trimL v).length ≤ v.length :=
  (List.dropWhile_suffix isWSB).length_le

theorem length_trimR_le (v : Str) : (trimR v).length ≤ v.length := by
  unfold trimR
  calc (v.reverse.dropWhile isWSB).reverse.length
      = (v.reverse.dropWhile isWSB).length := List.length_reverse _
    _ ≤ v.reverse.length := (List.dropWhile_suffix isWSB).length_le
    _ = v.length := List.length_reverse v

theorem trimL_of_trimmed {v : Str} (ht : jsTrim v = v) : trimL v = v := by
  have h1 : v.length ≤ (trimL v).length := by
    calc v.length = (jsTrim v).length := by rw [ht]
      _ ≤ (trimL v).length := length_trimR_le (trimL v)
  exact (List.dropWhile_suffix isWSB).eq_of_length
    (Nat.le_antisymm (length_trimL_le v) h1)

theorem trimR_of_trimmed {v : Str} (ht : jsTrim v = v) : trimR v = v := by
  have := ht
  unfold jsTrim at this
  rw [trimL_of_trimmed ht] at this
  exact this

theorem head_not_ws_of_trimmed {v : Str} (ht : jsTrim v = v) :
    ∀ c, v.head? = some c → isWSB c = false := by
  intro c hc
  have h1 := trimL_of_trimmed ht
  cases v with
  | nil => cases hc
  | cons x xs =>
    rw [show c = x from (Option.some.inj hc).symm]
    by_contra hws
    have hws' : isWSB x = true := by revert hws; cases isWSB x <;> simp
    rw [trimL_cons_ws hws'] at h1
    have h2 := length_trimL_le xs
    rw [h1] at h2
    simp at h2

theorem last_not_ws_of_trimmed {v : Str} (ht : jsTrim v = v) :
    ∀ c, v.getLast? = some c → isWSB c = false := by
  intro c hc
  have h2 := trimR_of_trimmed ht
  obtain ⟨ys, rfl⟩ := List.getLast?_eq_some_iff.mp hc
  by_contra hws
  have hws' : isWSB c = true := by revert hws; cases isWSB c <;> simp
  unfold trimR at h2
  rw [List.reverse_append] at h2
  simp only [List.reverse_cons, List.reverse_nil, List.nil_append, List.singleton_append,
    List.dropWhile_cons, hws', if_true] at h2
  have h3 : ((ys.reverse.dropWhile isWSB).reverse).length ≤ ys.length := by
    rw [List.length_reverse]
    exact le_trans ((List.dropWhile_suffix _).length_le) (le_of_eq (List.length_reverse _))
  rw [h2] at h3
  simp at h3

theorem jsTrim_eq_self {v : Str} (hh : ∀ c, v.head? = some c → isWSB c = false)
    (hl : ∀ c, v.getLast? = some c → isWSB c = false) : jsTrim v = v := by
  unfold jsTrim
  rw [trimL_eq_self hh, trimR_eq_self hl]

end SmartResumeFix

namespace SmartResumeFix

/-! ## Scan lemmas for the markup re-extractor -/

theorem lazyScan_caps_some (cs : Str) : ∃ r, lazyScan capsLook cs = some r := by
  induction cs with
  | nil => exact ⟨[], rfl⟩
  | cons c rest ih =>
    obtain ⟨r, hr⟩ := ih
    by_cases h : capsLook (c :: rest) = true
    · exact ⟨[], by simp [lazyScan, h]⟩
    · exact ⟨c :: r, by simp [lazyScan, h, hr]⟩

theorem lazyScan_caps_stop {tail : Str} (h : lrc tail = true) :
    lazyScan capsLook ('\n' :: tail) = some [] := by
  simp [lazyScan, capsLook, h]

theorem lazyScan_caps_cons_ne {c : Char} {l : Str} (hc : c ≠ '\n') :
    lazyScan capsLook (c :: l) = (lazyScan capsLook l).map (c :: ·) := by
  simp [lazyScan, capsLook, hc]

theorem lazyScan_caps_nl_skip {tail : Str} (h : lrc tail = false) :
    lazyScan capsLook ('\n' :: tail) = (lazyScan capsLook tail).map ('\n' :: ·) := by
  simp [lazyScan, capsLook, h]

theorem lazyScan_caps_through {v rest : Str} (hv : ∀ c ∈ v, c ≠ '\n') :
    lazyScan capsLook (v ++ rest) = (lazyScan capsLook rest).map (v ++ ·) := by
  induction v with
  | nil => cases h : lazyScan capsLook rest <;> simp [h]
  | cons c vs ih =>
    have hc : c ≠ '\n' := hv c (List.mem_cons_self c vs)
    have hv' : ∀ x ∈ vs, x ≠ '\n' := fun x hx => hv x (List.mem_cons_of_mem c hx)
    rw [List.cons_append, lazyScan_caps_cons_ne hc, ih hv']
    cases lazyScan capsLook rest <;> simp

theorem lazyScan_val_stop {v tail : Str} (hv : ∀ c ∈ v, c ≠ '\n') (h : lrc tail = true) :
    lazyScan capsLook (v ++ '\n' :: tail) = some v := by
  rw [lazyScan_caps_through hv, lazyScan_caps_stop h]
  simp

theorem lazyScan_val_skip {v tail : Str} (hv : ∀ c ∈ v, c ≠ '\n') (h : lrc tail = false) :
    lazyScan capsLook (v ++ '\n' :: tail)
      = (lazyScan capsLook tail).map (fun z => v ++ '\n' :: z) := by
  rw [lazyScan_caps_through hv, lazyScan_caps_nl_skip h]
  cases lazyScan capsLook tail <;> simp

/-- The lookahead accepts the boundary of an all-caps one-word label. -/
theorem lrc_contact (z : Str) : lrc (str "CONTACT: " ++ z) = true := rfl

theorem lrc_skills (z : Str) : lrc (str "SKILLS: " ++ z) = true := rfl

theorem lrc_education (z : Str) : lrc (str "EDUCATION: " ++ z) = true := rfl

theorem lrc_languages (z : Str) : lrc (str "LANGUAGES: " ++ z) = true := rfl

/-- The lookahead rejects a label containing a space: the letter run
`PROFESSIONAL` is followed by a space, not a colon. -/
theorem lrc_profsum (z : Str) : lrc (str "PROFESSIONAL SUMMARY: " ++ z) = false := rfl

theorem lrc_workexp (z : Str) : lrc (str "WORK EXPERIENCE: " ++ z) = false := rfl

/-! ## Positioning lemmas for `getSecRaw` -/

theorem prefix_take_le {m n : Nat} {l : Str} (h : m ≤ n) : l.take m <+: l.take n := by
  have heq : l.take m = (l.take n).take m := by
    rw [List.take_take, Nat.min_eq_left h]
  rw [heq]
  exact List.take_prefix m (l.take n)

/-- If the token does not occur (case-insensitively) inside the region
`ch :: a` extended by the first `|tok| - 1` characters of `rest`, it
cannot match at the very start of `ch :: a ++ rest`. -/
theorem not_ciPrefix_head {tok : Str} {ch : Char} {a rest : Str}
    (hpre : ¬ (lowerS tok <:+: lowerS (ch :: a) ++ (lowerS rest).take (tok.length - 1))) :
    ciPrefixB tok (ch :: a ++ rest) = false := by
  by_contra hb
  have hb' : ciPrefixB tok (ch :: a ++ rest) = true := by
    revert hb; cases ciPrefixB tok (ch :: a ++ rest) <;> simp
  have hp : lowerS tok <+: lowerS (ch :: a) ++ lowerS rest := by
    have h0 := ciPrefixB_iff.mp hb'
    rwa [show ((ch :: a ++ rest) : Str) = (ch :: a) ++ rest from rfl, lowerS_append] at h0
  apply hpre
  have hXlen : 1 ≤ (lowerS (ch :: a)).length := by simp [lowerS]
  have hTtake := List.prefix_iff_eq_take.mp hp
  rw [List.take_append_eq_append_take, lowerS_length tok] at hTtake
  by_cases hTX : tok.length ≤ (lowerS (ch :: a)).length
  · have h0 : tok.length - (lowerS (ch :: a)).length = 0 :=
      Nat.sub_eq_zero_of_le hTX
    rw [h0, List.take_zero, List.append_nil] at hTtake
    have hpX : lowerS tok <+: lowerS (ch :: a) := by
      rw [hTtake]; exact List.take_prefix _ _
    exact (hpX.trans (List.prefix_append _ _)).isInfix
  · push_neg at hTX
    have hX' : (lowerS (ch :: a)).take tok.length = lowerS (ch :: a) :=
      List.take_of_length_le (le_of_lt hTX)
    rw [hX'] at hTtake
    have hle : tok.length - (lowerS (ch :: a)).length ≤ tok.length - 1 :=
      Nat.sub_le_sub_left hXlen _
    have hfin : lowerS tok <+: lowerS (ch :: a) ++ (lowerS rest).take (tok.length - 1) := by
      rw [hTtake]
      exact (List.prefix_append_right_inj _).mpr (prefix_take_le hle)
    exact hfin.isInfix

/-- Skipping a token-free region at the front of the re-extractor's
search. -/
theorem getSecRaw_append {tok : Str} : ∀ (a rest : Str),
    (¬ (lowerS tok <:+: lowerS a ++ (lowerS rest).take (tok.length - 1))) →
    getSecRaw tok (a ++ rest) = getSecRaw tok rest := by
  intro a
  induction a with
  | nil => intro rest _; rfl
  | cons ch a' ih =>
    intro rest hpre
    have h1 : ciPrefixB tok (ch :: a' ++ rest) = false := not_ciPrefix_head hpre
    have h2 : ¬ (lowerS tok <:+: lowerS a' ++ (lowerS rest).take (tok.length - 1)) := by
      intro hI
      apply hpre
      have hsh : lowerS (ch :: a') ++ (lowerS rest).take (tok.length - 1)
          = lowerC ch :: (lowerS a' ++ (lowerS rest).take (tok.length - 1)) := rfl
      rw [hsh]
      exact List.infix_cons hI
    have hstep : getSecRaw tok (ch :: (a' ++ rest)) = getSecRaw tok (a' ++ rest) := by
      simp [getSecRaw, h1]
      intro hcontra
      have h1' : ciPrefixB tok (ch :: (a' ++ rest)) = false := h1
      rw [h1'] at hcontra
      simp at hcontra
    show getSecRaw tok (ch :: (a' ++ rest)) = getSecRaw tok rest
    rw [hstep]
    exact ih rest h2

/-- Unfolding the re-extractor at the position of the token. -/
theorem getSecRaw_hit {tok rest : Str} (h : ciPrefixB tok rest = true) (hne : rest ≠ []) :
    getSecRaw tok rest = lazyScan capsLook (rest.drop tok.length) := by
  obtain ⟨c, rest2, rfl⟩ := List.exists_cons_of_ne_nil hne
  obtain ⟨r, hr⟩ := lazyScan_caps_some ((c :: rest2).drop tok.length)
  simp [getSecRaw, h, hr]

end SmartResumeFix

namespace SmartResumeFix

/-! ## Cleanliness hypotheses for the round-trip lemmas -/


theorem lastChar_concrete {a : Str} {ch : Char} (h : a.getLast? = some ch) {p : Str}
    (hp : ch ∉ p) : ∀ c, a.getLast? = some c → c ∉ p := by
  intro c hc
  rw [h] at hc
  rw [← Option.some.inj hc]
  exact hp

theorem headChar_concrete {b : Str} {ch : Char} (h : b.head? = some ch) {p : Str}
    (hp : ch ∉ p) : ∀ c, b.head? = some c → c ∉ p := by
  intro c hc
  rw [h] at hc
  rw [← Option.some.inj hc]
  exact hp

theorem append_ne_nil_left {x y : Str} (h : x ≠ []) : x ++ y ≠ [] := by
  cases x with
  | nil => exact absurd rfl h
  | cons a as => simp

theorem append_ne_nil_right {x y : Str} (h : y ≠ []) : x ++ y ≠ [] := by
  cases x with
  | nil => simpa
  | cons a as => simp

theorem head?_append_of_ne_nil {x y : Str} (hx : x ≠ []) : (x ++ y).head? = x.head? := by
  cases x with
  | nil => exact absurd rfl hx
  | cons a as => rfl

theorem getLast?_append_of_ne_nil {x y : Str} (hy : y ≠ []) :
    (x ++ y).getLast? = y.getLast? := by
  rw [List.getLast?_append]
  obtain ⟨c, hc⟩ := getLast?_of_ne_nil hy
  rw [hc]
  rfl

theorem oneLine_append {x y : Str} (hx : ∀ c ∈ x, c ≠ '\n') (hy : ∀ c ∈ y, c ≠ '\n') :
    ∀ c ∈ x ++ y, c ≠ '\n' := by
  intro ch hch
  rcases List.mem_append.mp hch with h | h
  · exact hx ch h
  · exact hy ch h

theorem jsTrim_capture {x : Str} (hh : ∀ c, x.head? = some c → isWSB c = false)
    (hl : ∀ c, x.getLast? = some c → isWSB c = false) :
    jsTrim (' ' :: x) = x := by
  unfold jsTrim
  rw [trimL_cons_ws (by decide), trimL_eq_self hh, trimR_eq_self hl]


theorem buildResume_eq_labeledDoc {n c s k e d l : Str} (hn : n ≠ []) (hc : c ≠ [])
    (hk : k ≠ []) (he : e ≠ []) (hd : d ≠ []) (hl : l ≠ []) :
    buildResume n c s k e d l = labeledDoc n c s k e d l := by
  simp [buildResume, labeledDoc, hn, hc, hk, he, hd, hl, List.append_assoc,
    show str "\n" = ['\n'] from rfl, List.singleton_append]

end SmartResumeFix

namespace SmartResumeFix

theorem oneLine_cons {ch : Char} {v : Str} (hch : ch ≠ '\n') (hv : ∀ x ∈ v, x ≠ '\n') :
    ∀ x ∈ ch :: v, x ≠ '\n' := by
  intro x hx
  rcases List.mem_cons.mp hx with rfl | h
  · exact hch
  · exact hv x h

/-- The NAME lookup of the re-extractor on a renderer document
recovers the name verbatim: the token matches at position zero and the
scan stops at the next all-caps label line. -/
theorem getSection_NAME_gen {n rest : Str} (hn : CleanVal n) (hr : lrc rest = true) :
    getSection (str "NAME") (str "NAME: " ++ (n ++ ('\n' :: rest))) = n := by
  unfold getSection
  rw [show str "NAME" ++ str ":" = str "NAME:" from rfl]
  have hne : (str "NAME: " ++ (n ++ ('\n' :: rest))) ≠ [] := append_ne_nil_left (by decide)
  have hcip : ciPrefixB (str "NAME:") (str "NAME: " ++ (n ++ ('\n' :: rest))) = true := rfl
  rw [getSecRaw_hit hcip hne]
  rw [show (str "NAME: " ++ (n ++ ('\n' :: rest))).drop (str "NAME:").length
      = (' ' :: n) ++ ('\n' :: rest) from rfl]
  rw [lazyScan_val_stop (oneLine_cons (by decide) hn.oneLine) hr]
  show jsTrim (' ' :: n) = n
  exact jsTrim_capture (head_not_ws_of_trimmed hn.trimmed) (last_not_ws_of_trimmed hn.trimmed)

/-- The CONTACT lookup of the re-extractor on a renderer document:
the scan runs past the PROFESSIONAL SUMMARY line (whose space defeats
the all-caps lookahead) and stops only at the next one-word label. -/
theorem getSection_CONTACT_gen {n c s rest : Str} (hn : CleanVal n) (hc : CleanVal c)
    (hs : CleanVal s) (hr : lrc rest = true) :
    getSection (str "CONTACT")
      (str "NAME: " ++ (n ++ ('\n' :: (str "CONTACT: " ++ (c ++ ('\n' ::
        (str "PROFESSIONAL SUMMARY: " ++ (s ++ ('\n' :: rest)))))))))
      = c ++ ('\n' :: (str "PROFESSIONAL SUMMARY: " ++ s)) := by
  unfold getSection
  rw [show str "CONTACT" ++ str ":" = str "CONTACT:" from rfl]
  rw [show str "NAME: " ++ (n ++ ('\n' :: (str "CONTACT: " ++ (c ++ ('\n' ::
        (str "PROFESSIONAL SUMMARY: " ++ (s ++ ('\n' :: rest))))))))
      = (str "NAME: " ++ (n ++ ['\n'])) ++ (str "CONTACT: " ++ (c ++ ('\n' ::
        (str "PROFESSIONAL SUMMARY: " ++ (s ++ ('\n' :: rest))))))
      from by simp [List.append_assoc]]
  have hpre : ¬ (lowerS (str "CONTACT:") <:+:
      lowerS (str "NAME: " ++ (n ++ ['\n']))
        ++ (lowerS (str "CONTACT: " ++ (c ++ ('\n' ::
              (str "PROFESSIONAL SUMMARY: " ++ (s ++ ('\n' :: rest))))))).take
            ((str "CONTACT:").length - 1)) := by
    rw [show lowerS (str "CONTACT:") = str "contact:" from rfl]
    rw [show (lowerS (str "CONTACT: " ++ (c ++ ('\n' ::
          (str "PROFESSIONAL SUMMARY: " ++ (s ++ ('\n' :: rest))))))).take
            ((str "CONTACT:").length - 1) = str "contact" from by
      rw [lowerS_append]; rfl]
    rw [show lowerS (str "NAME: " ++ (n ++ ['\n'])) = str "name: " ++ (lowerS n ++ ['\n'])
      from by rw [lowerS_append, lowerS_append]; rfl]
    rw [show (str "name: " ++ (lowerS n ++ ['\n'])) ++ str "contact"
        = str "name: " ++ (lowerS n ++ ('\n' :: str "contact"))
      from by simp [List.append_assoc]]
    refine not_infix_append_lastChar (by decide) ?_
      (lastChar_concrete (show (str "name: ").getLast? = some ' ' from rfl) (by decide))
    refine not_infix_append_headChar ?_ (by decide)
      (headChar_concrete (show ('\n' :: str "contact" : Str).head? = some '\n' from rfl)
        (by decide))
    exact hn.tokFree (str "contact:") (by decide)
  rw [getSecRaw_append _ _ hpre]
  have hcip : ciPrefixB (str "CONTACT:") (str "CONTACT: " ++ (c ++ ('\n' ::
      (str "PROFESSIONAL SUMMARY: " ++ (s ++ ('\n' :: rest)))))) = true := rfl
  rw [getSecRaw_hit hcip (append_ne_nil_left (by decide))]
  rw [show (str "CONTACT: " ++ (c ++ ('\n' ::
        (str "PROFESSIONAL SUMMARY: " ++ (s ++ ('\n' :: rest)))))).drop
          (str "CONTACT:").length
      = (' ' :: c) ++ ('\n' :: (str "PROFESSIONAL SUMMARY: " ++ (s ++ ('\n' :: rest))))
      from rfl]
  rw [lazyScan_val_skip (oneLine_cons (by decide) hc.oneLine)
    (lrc_profsum (s ++ ('\n' :: rest)))]
  rw [show str "PROFESSIONAL SUMMARY: " ++ (s ++ ('\n' :: rest))
      = (str "PROFESSIONAL SUMMARY: " ++ s) ++ ('\n' :: rest)
      from by simp [List.append_assoc]]
  rw [lazyScan_val_stop (oneLine_append (by decide) hs.oneLine) hr]
  show jsTrim (' ' :: (c ++ ('\n' :: (str "PROFESSIONAL SUMMARY: " ++ s))))
      = c ++ ('\n' :: (str "PROFESSIONAL SUMMARY: " ++ s))
  refine jsTrim_capture ?_ ?_
  · rw [head?_append_of_ne_nil hc.ne]
    exact head_not_ws_of_trimmed hc.trimmed
  · rw [getLast?_append_of_ne_nil (by simp),
      show ('\n' :: (str "PROFESSIONAL SUMMARY: " ++ s) : Str)
        = ('\n' :: str "PROFESSIONAL SUMMARY: ") ++ s from by simp,
      getLast?_append_of_ne_nil hs.ne]
    exact last_not_ws_of_trimmed hs.trimmed

end SmartResumeFix

namespace SmartResumeFix

theorem lowerS_cons (ch : Char) (x : Str) : lowerS (ch :: x) = lowerC ch :: lowerS x := rfl

theorem low_name : lowerS (str "NAME: ") = str "name: " := rfl

theorem low_contact : lowerS (str "CONTACT: ") = str "contact: " := rfl

theorem low_prof : lowerS (str "PROFESSIONAL ") = str "professional " := rfl

theorem low_profsum : lowerS (str "PROFESSIONAL SUMMARY: ") = str "professional summary: " := rfl

theorem low_skills : lowerS (str "SKILLS: ") = str "skills: " := rfl

theorem low_work : lowerS (str "WORK ") = str "work " := rfl

theorem low_workexp : lowerS (str "WORK EXPERIENCE: ") = str "work experience: " := rfl

theorem low_education : lowerS (str "EDUCATION: ") = str "education: " := rfl

theorem lowerC_nl : lowerC '\n' = '\n' := rfl

theorem headChar_cons {ch : Char} {X p : Str} (hp : ch ∉ p) :
    ∀ c, (ch :: X : Str).head? = some c → c ∉ p := by
  intro c hc
  rw [← Option.some.inj hc]
  exact hp

/-- A non-empty token without a newline cannot start at a leading
newline. -/
theorem not_infix_cons_nl {p X : Str} (hne : p ≠ []) (hnl : '\n' ∉ p) (hp : ¬ p <:+: X) :
    ¬ p <:+: '\n' :: X := by
  rw [show ('\n' :: X : Str) = ['\n'] ++ X from rfl]
  refine not_infix_append_lastChar ?_ hp
    (lastChar_concrete (show (['\n'] : Str).getLast? = some '\n' from rfl) hnl)
  intro h
  obtain ⟨x, xs, rfl⟩ := List.exists_cons_of_ne_nil hne
  have hx : x ∈ (['\n'] : Str) := h.subset (List.mem_cons_self x xs)
  simp only [List.mem_singleton] at hx
  exact hnl (by rw [← hx]; exact List.mem_cons_self x xs)

/-- The SUMMARY lookup of the re-extractor matches inside the
renderer's PROFESSIONAL SUMMARY label and recovers the summary. -/
theorem getSection_SUMMARY_gen {n c s rest : Str} (hn : CleanVal n) (hc : CleanVal c)
    (hs : CleanVal s) (hr : lrc rest = true) :
    getSection (str "SUMMARY")
      (str "NAME: " ++ (n ++ ('\n' :: (str "CONTACT: " ++ (c ++ ('\n' ::
        (str "PROFESSIONAL SUMMARY: " ++ (s ++ ('\n' :: rest)))))))))
      = s := by
  unfold getSection
  rw [show str "SUMMARY" ++ str ":" = str "SUMMARY:" from rfl]
  rw [show str "NAME: " ++ (n ++ ('\n' :: (str "CONTACT: " ++ (c ++ ('\n' ::
        (str "PROFESSIONAL SUMMARY: " ++ (s ++ ('\n' :: rest))))))))
      = (str "NAME: " ++ (n ++ ('\n' :: (str "CONTACT: " ++ (c ++ ('\n' ::
          str "PROFESSIONAL "))))))
        ++ (str "SUMMARY: " ++ (s ++ ('\n' :: rest)))
      from by
        simp [show (str "PROFESSIONAL SUMMARY: " : Str)
            = str "PROFESSIONAL " ++ str "SUMMARY: " from rfl, List.append_assoc]]
  have hpre : ¬ (lowerS (str "SUMMARY:") <:+:
      lowerS (str "NAME: " ++ (n ++ ('\n' :: (str "CONTACT: " ++ (c ++ ('\n' ::
          str "PROFESSIONAL "))))))
        ++ (lowerS (str "SUMMARY: " ++ (s ++ ('\n' :: rest)))).take
            ((str "SUMMARY:").length - 1)) := by
    rw [show lowerS (str "SUMMARY:") = str "summary:" from rfl]
    rw [show (lowerS (str "SUMMARY: " ++ (s ++ ('\n' :: rest)))).take
          ((str "SUMMARY:").length - 1) = str "summary" from by
      rw [lowerS_append]; rfl]
    simp only [lowerS_append, lowerS_cons, low_name, low_contact, low_prof, lowerC_nl]
    rw [show (str "name: " ++ (lowerS n ++ ('\n' :: (str "contact: " ++ (lowerS c ++ ('\n' ::
          str "professional ")))))) ++ str "summary"
        = str "name: " ++ (lowerS n ++ ('\n' :: (str "contact: " ++ (lowerS c ++ ('\n' ::
          (str "professional " ++ str "summary"))))))
      from by simp [List.append_assoc]]
    refine not_infix_append_lastChar (by decide) ?_
      (lastChar_concrete (show (str "name: ").getLast? = some ' ' from rfl) (by decide))
    refine not_infix_append_headChar (hn.tokFree (str "summary:") (by decide))
      (not_infix_cons_nl (by decide) (by decide) ?_) (headChar_cons (by decide))
    refine not_infix_append_lastChar (by decide) ?_
      (lastChar_concrete (show (str "contact: ").getLast? = some ' ' from rfl) (by decide))
    exact not_infix_append_headChar (hc.tokFree (str "summary:") (by decide))
      (not_infix_cons_nl (by decide) (by decide) (by decide)) (headChar_cons (by decide))
  rw [getSecRaw_append _ _ hpre]
  have hcip : ciPrefixB (str "SUMMARY:") (str "SUMMARY: " ++ (s ++ ('\n' :: rest))) = true := rfl
  rw [getSecRaw_hit hcip (append_ne_nil_left (by decide))]
  rw [show (str "SUMMARY: " ++ (s ++ ('\n' :: rest))).drop (str "SUMMARY:").length
      = (' ' :: s) ++ ('\n' :: rest) from rfl]
  rw [lazyScan_val_stop (oneLine_cons (by decide) hs.oneLine) hr]
  show jsTrim (' ' :: s) = s
  exact jsTrim_capture (head_not_ws_of_trimmed hs.trimmed) (last_not_ws_of_trimmed hs.trimmed)

end SmartResumeFix

namespace SmartResumeFix

theorem lowerS_nil : lowerS [] = [] := rfl

/-- The SKILLS lookup of the re-extractor on the renderer document:
the scan runs past the WORK EXPERIENCE line (whose space defeats the
all-caps lookahead) and stops at the EDUCATION label. -/
theorem getSection_SKILLS_doc {n c s k e d l : Str} (hn : CleanVal n) (hc : CleanVal c)
    (hs : CleanVal s) (hk : CleanVal k) (he : CleanVal e) :
    getSection (str "SKILLS") (labeledDoc n c s k e d l)
      = k ++ ('\n' :: (str "WORK EXPERIENCE: " ++ e)) := by
  unfold getSection
  rw [show str "SKILLS" ++ str ":" = str "SKILLS:" from rfl]
  rw [show labeledDoc n c s k e d l = (str "NAME: " ++ (n ++ ('\n' :: (str "CONTACT: " ++ (c ++ ('\n' :: (str "PROFESSIONAL SUMMARY: " ++ (s ++ ['\n'])))))))) ++ (str "SKILLS: " ++ (k ++ ('\n' :: (str "WORK EXPERIENCE: " ++ (e ++ ('\n' :: (str "EDUCATION: " ++ (d ++ ('\n' :: (str "LANGUAGES: " ++ (l ++ str "\n"))))))))))) from by
    unfold labeledDoc
    simp [List.append_assoc, List.singleton_append]]
  have hpre : ¬ (lowerS (str "SKILLS:") <:+:
      lowerS (str "NAME: " ++ (n ++ ('\n' :: (str "CONTACT: " ++ (c ++ ('\n' :: (str "PROFESSIONAL SUMMARY: " ++ (s ++ ['\n'])))))))) ++ (lowerS (str "SKILLS: " ++ (k ++ ('\n' :: (str "WORK EXPERIENCE: " ++ (e ++ ('\n' :: (str "EDUCATION: " ++ (d ++ ('\n' :: (str "LANGUAGES: " ++ (l ++ str "\n")))))))))))).take ((str "SKILLS:").length - 1)) := by
    rw [show lowerS (str "SKILLS:") = str "skills:" from rfl]
    rw [show (lowerS (str "SKILLS: " ++ (k ++ ('\n' :: (str "WORK EXPERIENCE: " ++ (e ++ ('\n' :: (str "EDUCATION: " ++ (d ++ ('\n' :: (str "LANGUAGES: " ++ (l ++ str "\n")))))))))))).take ((str "SKILLS:").length - 1) = str "skills" from by
      rw [lowerS_append]; rfl]
    simp only [lowerS_append, lowerS_cons, lowerS_nil, low_name, low_contact, low_profsum,
      lowerC_nl]
    rw [show (str "name: " ++ (lowerS n ++ ('\n' :: (str "contact: " ++ (lowerS c ++ ('\n' :: (str "professional summary: " ++ (lowerS s ++ ['\n'])))))))) ++ str "skills" = (str "name: " ++ (lowerS n ++ ('\n' :: (str "contact: " ++ (lowerS c ++ ('\n' :: (str "professional summary: " ++ (lowerS s ++ ('\n' :: str "skills"))))))))) from by
      simp [List.append_assoc, List.singleton_append]]
    refine not_infix_append_lastChar (by decide) ?_
      (lastChar_concrete (show (str "name: ").getLast? = some ' ' from rfl) (by decide))
    refine not_infix_append_headChar (hn.tokFree (str "skills:") (by decide))
      (not_infix_cons_nl (by decide) (by decide) ?_) (headChar_cons (by decide))
    refine not_infix_append_lastChar (by decide) ?_
      (lastChar_concrete (show (str "contact: ").getLast? = some ' ' from rfl) (by decide))
    refine not_infix_append_headChar (hc.tokFree (str "skills:") (by decide))
      (not_infix_cons_nl (by decide) (by decide) ?_) (headChar_cons (by decide))
    refine not_infix_append_lastChar (by decide) ?_
      (lastChar_concrete (show (str "professional summary: ").getLast? = some ' ' from rfl)
        (by decide))
    exact not_infix_append_headChar (hs.tokFree (str "skills:") (by decide))
      (not_infix_cons_nl (by decide) (by decide) (by decide)) (headChar_cons (by decide))
  rw [getSecRaw_append _ _ hpre]
  have hcip : ciPrefixB (str "SKILLS:") (str "SKILLS: " ++ (k ++ ('\n' :: (str "WORK EXPERIENCE: " ++ (e ++ ('\n' :: (str "EDUCATION: " ++ (d ++ ('\n' :: (str "LANGUAGES: " ++ (l ++ str "\n"))))))))))) = true := rfl
  rw [getSecRaw_hit hcip (append_ne_nil_left (by decide))]
  rw [show (str "SKILLS: " ++ (k ++ ('\n' :: (str "WORK EXPERIENCE: " ++ (e ++ ('\n' :: (str "EDUCATION: " ++ (d ++ ('\n' :: (str "LANGUAGES: " ++ (l ++ str "\n"))))))))))).drop (str "SKILLS:").length
      = (' ' :: k) ++ ('\n' :: (str "WORK EXPERIENCE: " ++ (e ++ ('\n' :: (str "EDUCATION: " ++ (d ++ ('\n' :: (str "LANGUAGES: " ++ (l ++ str "\n"))))))))) from rfl]
  rw [lazyScan_val_skip (oneLine_cons (by decide) hk.oneLine)
    (lrc_workexp (e ++ ('\n' :: (str "EDUCATION: " ++ (d ++ ('\n' :: (str "LANGUAGES: " ++ (l ++ str "\n"))))))))]
  rw [show str "WORK EXPERIENCE: " ++ (e ++ ('\n' :: (str "EDUCATION: " ++ (d ++ ('\n' :: (str "LANGUAGES: " ++ (l ++ str "\n")))))))
      = (str "WORK EXPERIENCE: " ++ e) ++ ('\n' :: (str "EDUCATION: " ++ (d ++ ('\n' :: (str "LANGUAGES: " ++ (l ++ str "\n")))))) from by
    simp [List.append_assoc]]
  rw [lazyScan_val_stop (oneLine_append (by decide) he.oneLine) (lrc_education _)]
  show jsTrim (' ' :: (k ++ ('\n' :: (str "WORK EXPERIENCE: " ++ e))))
      = k ++ ('\n' :: (str "WORK EXPERIENCE: " ++ e))
  refine jsTrim_capture ?_ ?_
  · rw [head?_append_of_ne_nil hk.ne]
    exact head_not_ws_of_trimmed hk.trimmed
  · rw [getLast?_append_of_ne_nil (by simp),
      show ('\n' :: (str "WORK EXPERIENCE: " ++ e) : Str)
        = ('\n' :: str "WORK EXPERIENCE: ") ++ e from by simp,
      getLast?_append_of_ne_nil he.ne]
    exact last_not_ws_of_trimmed he.trimmed


/-- The EXPERIENCE lookup of the re-extractor matches inside the
renderer's WORK EXPERIENCE label and recovers the experience value. -/
theorem getSection_EXPERIENCE_doc {n c s k e d l : Str} (hn : CleanVal n) (hc : CleanVal c)
    (hs : CleanVal s) (hk : CleanVal k) (he : CleanVal e) :
    getSection (str "EXPERIENCE") (labeledDoc n c s k e d l) = e := by
  unfold getSection
  rw [show str "EXPERIENCE" ++ str ":" = str "EXPERIENCE:" from rfl]
  rw [show labeledDoc n c s k e d l = (str "NAME: " ++ (n ++ ('\n' :: (str "CONTACT: " ++ (c ++ ('\n' :: (str "PROFESSIONAL SUMMARY: " ++ (s ++ ('\n' :: (str "SKILLS: " ++ (k ++ ('\n' :: str "WORK ")))))))))))) ++ (str "EXPERIENCE: " ++ (e ++ ('\n' :: (str "EDUCATION: " ++ (d ++ ('\n' :: (str "LANGUAGES: " ++ (l ++ str "\n")))))))) from by
    unfold labeledDoc
    simp [show (str "WORK EXPERIENCE: " : Str) = str "WORK " ++ str "EXPERIENCE: " from rfl,
      List.append_assoc, List.singleton_append]]
  have hpre : ¬ (lowerS (str "EXPERIENCE:") <:+:
      lowerS (str "NAME: " ++ (n ++ ('\n' :: (str "CONTACT: " ++ (c ++ ('\n' :: (str "PROFESSIONAL SUMMARY: " ++ (s ++ ('\n' :: (str "SKILLS: " ++ (k ++ ('\n' :: str "WORK ")))))))))))) ++ (lowerS (str "EXPERIENCE: " ++ (e ++ ('\n' :: (str "EDUCATION: " ++ (d ++ ('\n' :: (str "LANGUAGES: " ++ (l ++ str "\n"))))))))).take ((str "EXPERIENCE:").length - 1)) := by
    rw [show lowerS (str "EXPERIENCE:") = str "experience:" from rfl]
    rw [show (lowerS (str "EXPERIENCE: " ++ (e ++ ('\n' :: (str "EDUCATION: " ++ (d ++ ('\n' :: (str "LANGUAGES: " ++ (l ++ str "\n"))))))))).take ((str "EXPERIENCE:").length - 1) = str "experience" from by
      rw [lowerS_append]; rfl]
    simp only [lowerS_append, lowerS_cons, lowerS_nil, low_name, low_contact, low_profsum,
      low_skills, low_work, lowerC_nl]
    rw [show (str "name: " ++ (lowerS n ++ ('\n' :: (str "contact: " ++ (lowerS c ++ ('\n' :: (str "professional summary: " ++ (lowerS s ++ ('\n' :: (str "skills: " ++ (lowerS k ++ ('\n' :: str "work ")))))))))))) ++ str "experience" = (str "name: " ++ (lowerS n ++ ('\n' :: (str "contact: " ++ (lowerS c ++ ('\n' :: (str "professional summary: " ++ (lowerS s ++ ('\n' :: (str "skills: " ++ (lowerS k ++ ('\n' :: (str "work " ++ str "experience"))))))))))))) from by
      simp [List.append_assoc, List.singleton_append]]
    refine not_infix_append_lastChar (by decide) ?_
      (lastChar_concrete (show (str "name: ").getLast? = some ' ' from rfl) (by decide))
    refine not_infix_append_headChar (hn.tokFree (str "experience:") (by decide))
      (not_infix_cons_nl (by decide) (by decide) ?_) (headChar_cons (by decide))
    refine not_infix_append_lastChar (by decide) ?_
      (lastChar_concrete (show (str "contact: ").getLast? = some ' ' from rfl) (by decide))
    refine not_infix_append_headChar (hc.tokFree (str "experience:") (by decide))
      (not_infix_cons_nl (by decide) (by decide) ?_) (headChar_cons (by decide))
    refine not_infix_append_lastChar (by decide) ?_
      (lastChar_concrete (show (str "professional summary: ").getLast? = some ' ' from rfl)
        (by decide))
    refine not_infix_append_headChar (hs.tokFree (str "experience:") (by decide))
      (not_infix_cons_nl (by decide) (by decide) ?_) (headChar_cons (by decide))
    refine not_infix_append_lastChar (by decide) ?_
      (lastChar_concrete (show (str "skills: ").getLast? = some ' ' from rfl) (by decide))
    exact not_infix_append_headChar (hk.tokFree (str "experience:") (by decide))
      (not_infix_cons_nl (by decide) (by decide) (by decide)) (headChar_cons (by decide))
  rw [getSecRaw_append _ _ hpre]
  have hcip : ciPrefixB (str "EXPERIENCE:") (str "EXPERIENCE: " ++ (e ++ ('\n' :: (str "EDUCATION: " ++ (d ++ ('\n' :: (str "LANGUAGES: " ++ (l ++ str "\n")))))))) = true := rfl
  rw [getSecRaw_hit hcip (append_ne_nil_left (by decide))]
  rw [show (str "EXPERIENCE: " ++ (e ++ ('\n' :: (str "EDUCATION: " ++ (d ++ ('\n' :: (str "LANGUAGES: " ++ (l ++ str "\n")))))))).drop (str "EXPERIENCE:").length
      = (' ' :: e) ++ ('\n' :: (str "EDUCATION: " ++ (d ++ ('\n' :: (str "LANGUAGES: " ++ (l ++ str "\n")))))) from rfl]
  rw [lazyScan_val_stop (oneLine_cons (by decide) he.oneLine) (lrc_education _)]
  show jsTrim (' ' :: e) = e
  exact jsTrim_capture (head_not_ws_of_trimmed he.trimmed) (last_not_ws_of_trimmed he.trimmed)


/-- The EDUCATION lookup of the re-extractor recovers the education
value; the scan stops at the LANGUAGES label line. -/
theorem getSection_EDUCATION_doc {n c s k e d l : Str} (hn : CleanVal n) (hc : CleanVal c)
    (hs : CleanVal s) (hk : CleanVal k) (he : CleanVal e) (hd : CleanVal d) :
    getSection (str "EDUCATION") (labeledDoc n c s k e d l) = d := by
  unfold getSection
  rw [show str "EDUCATION" ++ str ":" = str "EDUCATION:" from rfl]
  rw [show labeledDoc n c s k e d l = (str "NAME: " ++ (n ++ ('\n' :: (str "CONTACT: " ++ (c ++ ('\n' :: (str "PROFESSIONAL SUMMARY: " ++ (s ++ ('\n' :: (str "SKILLS: " ++ (k ++ ('\n' :: (str "WORK EXPERIENCE: " ++ (e ++ ['\n'])))))))))))))) ++ (str "EDUCATION: " ++ (d ++ ('\n' :: (str "LANGUAGES: " ++ (l ++ str "\n"))))) from by
    unfold labeledDoc
    simp [List.append_assoc, List.singleton_append]]
  have hpre : ¬ (lowerS (str "EDUCATION:") <:+:
      lowerS (str "NAME: " ++ (n ++ ('\n' :: (str "CONTACT: " ++ (c ++ ('\n' :: (str "PROFESSIONAL SUMMARY: " ++ (s ++ ('\n' :: (str "SKILLS: " ++ (k ++ ('\n' :: (str "WORK EXPERIENCE: " ++ (e ++ ['\n'])))))))))))))) ++ (lowerS (str "EDUCATION: " ++ (d ++ ('\n' :: (str "LANGUAGES: " ++ (l ++ str "\n")))))).take ((str "EDUCATION:").length - 1)) := by
    rw [show lowerS (str "EDUCATION:") = str "education:" from rfl]
    rw [show (lowerS (str "EDUCATION: " ++ (d ++ ('\n' :: (str "LANGUAGES: " ++ (l ++ str "\n")))))).take ((str "EDUCATION:").length - 1) = str "education" from by
      rw [lowerS_append]; rfl]
    simp only [lowerS_append, lowerS_cons, lowerS_nil, low_name, low_contact, low_profsum,
      low_skills, low_workexp, lowerC_nl]
    rw [show (str "name: " ++ (lowerS n ++ ('\n' :: (str "contact: " ++ (lowerS c ++ ('\n' :: (str "professional summary: " ++ (lowerS s ++ ('\n' :: (str "skills: " ++ (lowerS k ++ ('\n' :: (str "work experience: " ++ (lowerS e ++ ['\n'])))))))))))))) ++ str "education" = (str "name: " ++ (lowerS n ++ ('\n' :: (str "contact: " ++ (lowerS c ++ ('\n' :: (str "professional summary: " ++ (lowerS s ++ ('\n' :: (str "skills: " ++ (lowerS k ++ ('\n' :: (str "work experience: " ++ (lowerS e ++ ('\n' :: str "education"))))))))))))))) from by
      simp [List.append_assoc, List.singleton_append]]
    refine not_infix_append_lastChar (by decide) ?_
      (lastChar_concrete (show (str "name: ").getLast? = some ' ' from rfl) (by decide))
    refine not_infix_append_headChar (hn.tokFree (str "education:") (by decide))
      (not_infix_cons_nl (by decide) (by decide) ?_) (headChar_cons (by decide))
    refine not_infix_append_lastChar (by decide) ?_
      (lastChar_concrete (show (str "contact: ").getLast? = some ' ' from rfl) (by decide))
    refine not_infix_append_headChar (hc.tokFree (str "education:") (by decide))
      (not_infix_cons_nl (by decide) (by decide) ?_) (headChar_cons (by decide))
    refine not_infix_append_lastChar (by decide) ?_
      (lastChar_concrete (show (str "professional summary: ").getLast? = some ' ' from rfl)
        (by decide))
    refine not_infix_append_headChar (hs.tokFree (str "education:") (by decide))
      (not_infix_cons_nl (by decide) (by decide) ?_) (headChar_cons (by decide))
    refine not_infix_append_lastChar (by decide) ?_
      (lastChar_concrete (show (str "skills: ").getLast? = some ' ' from rfl) (by decide))
    refine not_infix_append_headChar (hk.tokFree (str "education:") (by decide))
      (not_infix_cons_nl (by decide) (by decide) ?_) (headChar_cons (by decide))
    refine not_infix_append_lastChar (by decide) ?_
      (lastChar_concrete (show (str "work experience: ").getLast? = some ' ' from rfl)
        (by decide))
    exact not_infix_append_headChar (he.tokFree (str "education:") (by decide))
      (not_infix_cons_nl (by decide) (by decide) (by decide)) (headChar_cons (by decide))
  rw [getSecRaw_append _ _ hpre]
  have hcip : ciPrefixB (str "EDUCATION:") (str "EDUCATION: " ++ (d ++ ('\n' :: (str "LANGUAGES: " ++ (l ++ str "\n"))))) = true := rfl
  rw [getSecRaw_hit hcip (append_ne_nil_left (by decide))]
  rw [show (str "EDUCATION: " ++ (d ++ ('\n' :: (str "LANGUAGES: " ++ (l ++ str "\n"))))).drop (str "EDUCATION:").length
      = (' ' :: d) ++ ('\n' :: (str "LANGUAGES: " ++ (l ++ str "\n"))) from rfl]
  rw [lazyScan_val_stop (oneLine_cons (by decide) hd.oneLine) (lrc_languages _)]
  show jsTrim (' ' :: d) = d
  exact jsTrim_capture (head_not_ws_of_trimmed hd.trimmed) (last_not_ws_of_trimmed hd.trimmed)


theorem getSection_NAME_doc {n c s k e d l : Str} (hn : CleanVal n) :
    getSection (str "NAME") (labeledDoc n c s k e d l) = n :=
  getSection_NAME_gen hn (lrc_contact _)

theorem getSection_CONTACT_doc {n c s k e d l : Str} (hn : CleanVal n) (hc : CleanVal c)
    (hs : CleanVal s) :
    getSection (str "CONTACT") (labeledDoc n c s k e d l)
      = c ++ ('\n' :: (str "PROFESSIONAL SUMMARY: " ++ s)) :=
  getSection_CONTACT_gen hn hc hs (lrc_skills _)

theorem getSection_SUMMARY_doc {n c s k e d l : Str} (hn : CleanVal n) (hc : CleanVal c)
    (hs : CleanVal s) :
    getSection (str "SUMMARY") (labeledDoc n c s k e d l) = s :=
  getSection_SUMMARY_gen hn hc hs (lrc_skills _)

/-- The labeled text of the renderer when the languages value is
empty: the document ends at the EDUCATION line. -/
theorem buildResume_eq_labeledDocNL {n c s k e d : Str} (hn : n ≠ []) (hc : c ≠ [])
    (hk : k ≠ []) (he : e ≠ []) (hd : d ≠ []) :
    buildResume n c s k e d [] = labeledDocNL n c s k e d := by
  simp [buildResume, labeledDocNL, hn, hc, hk, he, hd, List.append_assoc,
    show str "\n" = ['\n'] from rfl, List.singleton_append]

/-- Dropping from the right looks past a trailing newline. -/
theorem trimR_append_nl (d : Str) : trimR (d ++ ['\n']) = trimR d := by
  simp [trimR, List.reverse_append, List.dropWhile_cons, show isWSB '\n' = true from rfl]

theorem getSection_NAME_docNL {n c s k e d : Str} (hn : CleanVal n) :
    getSection (str "NAME") (labeledDocNL n c s k e d) = n :=
  getSection_NAME_gen hn (lrc_contact _)

theorem getSection_CONTACT_docNL {n c s k e d : Str} (hn : CleanVal n) (hc : CleanVal c)
    (hs : CleanVal s) :
    getSection (str "CONTACT") (labeledDocNL n c s k e d)
      = c ++ ('\n' :: (str "PROFESSIONAL SUMMARY: " ++ s)) :=
  getSection_CONTACT_gen hn hc hs (lrc_skills _)

theorem getSection_SUMMARY_docNL {n c s k e d : Str} (hn : CleanVal n) (hc : CleanVal c)
    (hs : CleanVal s) :
    getSection (str "SUMMARY") (labeledDocNL n c s k e d) = s :=
  getSection_SUMMARY_gen hn hc hs (lrc_skills _)


/-- The SKILLS lookup on the languages-free renderer document: the
scan runs past the WORK EXPERIENCE line and stops at the EDUCATION
label. -/
theorem getSection_SKILLS_docNL {n c s k e d : Str} (hn : CleanVal n) (hc : CleanVal c)
    (hs : CleanVal s) (hk : CleanVal k) (he : CleanVal e) :
    getSection (str "SKILLS") (labeledDocNL n c s k e d)
      = k ++ ('\n' :: (str "WORK EXPERIENCE: " ++ e)) := by
  unfold getSection
  rw [show str "SKILLS" ++ str ":" = str "SKILLS:" from rfl]
  rw [show labeledDocNL n c s k e d = (str "NAME: " ++ (n ++ ('\n' :: (str "CONTACT: " ++ (c ++ ('\n' :: (str "PROFESSIONAL SUMMARY: " ++ (s ++ ['\n'])))))))) ++ (str "SKILLS: " ++ (k ++ ('\n' :: (str "WORK EXPERIENCE: " ++ (e ++ ('\n' :: (str "EDUCATION: " ++ (d ++ str "\n")))))))) from by
    unfold labeledDocNL
    simp [List.append_assoc, List.singleton_append]]
  have hpre : ¬ (lowerS (str "SKILLS:") <:+:
      lowerS (str "NAME: " ++ (n ++ ('\n' :: (str "CONTACT: " ++ (c ++ ('\n' :: (str "PROFESSIONAL SUMMARY: " ++ (s ++ ['\n'])))))))) ++ (lowerS (str "SKILLS: " ++ (k ++ ('\n' :: (str "WORK EXPERIENCE: " ++ (e ++ ('\n' :: (str "EDUCATION: " ++ (d ++ str "\n"))))))))).take ((str "SKILLS:").length - 1)) := by
    rw [show lowerS (str "SKILLS:") = str "skills:" from rfl]
    rw [show (lowerS (str "SKILLS: " ++ (k ++ ('\n' :: (str "WORK EXPERIENCE: " ++ (e ++ ('\n' :: (str "EDUCATION: " ++ (d ++ str "\n"))))))))).take ((str "SKILLS:").length - 1) = str "skills" from by
      rw [lowerS_append]; rfl]
    simp only [lowerS_append, lowerS_cons, lowerS_nil, low_name, low_contact, low_profsum,
      lowerC_nl]
    rw [show (str "name: " ++ (lowerS n ++ ('\n' :: (str "contact: " ++ (lowerS c ++ ('\n' :: (str "professional summary: " ++ (lowerS s ++ ['\n'])))))))) ++ str "skills" = (str "name: " ++ (lowerS n ++ ('\n' :: (str "contact: " ++ (lowerS c ++ ('\n' :: (str "professional summary: " ++ (lowerS s ++ ('\n' :: str "skills"))))))))) from by
      simp [List.append_assoc, List.singleton_append]]
    refine not_infix_append_lastChar (by decide) ?_
      (lastChar_concrete (show (str "name: ").getLast? = some ' ' from rfl) (by decide))
    refine not_infix_append_headChar (hn.tokFree (str "skills:") (by decide))
      (not_infix_cons_nl (by decide) (by decide) ?_) (headChar_cons (by decide))
    refine not_infix_append_lastChar (by decide) ?_
      (lastChar_concrete (show (str "contact: ").getLast? = some ' ' from rfl) (by decide))
    refine not_infix_append_headChar (hc.tokFree (str "skills:") (by decide))
      (not_infix_cons_nl (by decide) (by decide) ?_) (headChar_cons (by decide))
    refine not_infix_append_lastChar (by decide) ?_
      (lastChar_concrete (show (str "professional summary: ").getLast? = some ' ' from rfl)
        (by decide))
    exact not_infix_append_headChar (hs.tokFree (str "skills:") (by decide))
      (not_infix_cons_nl (by decide) (by decide) (by decide)) (headChar_cons (by decide))
  rw [getSecRaw_append _ _ hpre]
  have hcip : ciPrefixB (str "SKILLS:") (str "SKILLS: " ++ (k ++ ('\n' :: (str "WORK EXPERIENCE: " ++ (e ++ ('\n' :: (str "EDUCATION: " ++ (d ++ str "\n")))))))) = true := rfl
  rw [getSecRaw_hit hcip (append_ne_nil_left (by decide))]
  rw [show (str "SKILLS: " ++ (k ++ ('\n' :: (str "WORK EXPERIENCE: " ++ (e ++ ('\n' :: (str "EDUCATION: " ++ (d ++ str "\n")))))))).drop (str "SKILLS:").length
      = (' ' :: k) ++ ('\n' :: (str "WORK EXPERIENCE: " ++ (e ++ ('\n' :: (str "EDUCATION: " ++ (d ++ str "\n")))))) from rfl]
  rw [lazyScan_val_skip (oneLine_cons (by decide) hk.oneLine)
    (lrc_workexp (e ++ ('\n' :: (str "EDUCATION: " ++ (d ++ str "\n")))))]
  rw [show str "WORK EXPERIENCE: " ++ (e ++ ('\n' :: (str "EDUCATION: " ++ (d ++ str "\n"))))
      = (str "WORK EXPERIENCE: " ++ e) ++ ('\n' :: (str "EDUCATION: " ++ (d ++ str "\n"))) from by
    simp [List.append_assoc]]
  rw [lazyScan_val_stop (oneLine_append (by decide) he.oneLine) (lrc_education _)]
  show jsTrim (' ' :: (k ++ ('\n' :: (str "WORK EXPERIENCE: " ++ e))))
      = k ++ ('\n' :: (str "WORK EXPERIENCE: " ++ e))
  refine jsTrim_capture ?_ ?_
  · rw [head?_append_of_ne_nil hk.ne]
    exact head_not_ws_of_trimmed hk.trimmed
  · rw [getLast?_append_of_ne_nil (by simp),
      show ('\n' :: (str "WORK EXPERIENCE: " ++ e) : Str)
        = ('\n' :: str "WORK EXPERIENCE: ") ++ e from by simp,
      getLast?_append_of_ne_nil he.ne]
    exact last_not_ws_of_trimmed he.trimmed


/-- The EXPERIENCE lookup on the languages-free renderer document
matches inside the WORK EXPERIENCE label and recovers the experience
value. -/
theorem getSection_EXPERIENCE_docNL {n c s k e d : Str} (hn : CleanVal n) (hc : CleanVal c)
    (hs : CleanVal s) (hk : CleanVal k) (he : CleanVal e) :
    getSection (str "EXPERIENCE") (labeledDocNL n c s k e d) = e := by
  unfold getSection
  rw [show str "EXPERIENCE" ++ str ":" = str "EXPERIENCE:" from rfl]
  rw [show labeledDocNL n c s k e d = (str "NAME: " ++ (n ++ ('\n' :: (str "CONTACT: " ++ (c ++ ('\n' :: (str "PROFESSIONAL SUMMARY: " ++ (s ++ ('\n' :: (str "SKILLS: " ++ (k ++ ('\n' :: str "WORK ")))))))))))) ++ (str "EXPERIENCE: " ++ (e ++ ('\n' :: (str "EDUCATION: " ++ (d ++ str "\n"))))) from by
    unfold labeledDocNL
    simp [show (str "WORK EXPERIENCE: " : Str) = str "WORK " ++ str "EXPERIENCE: " from rfl,
      List.append_assoc, List.singleton_append]]
  have hpre : ¬ (lowerS (str "EXPERIENCE:") <:+:
      lowerS (str "NAME: " ++ (n ++ ('\n' :: (str "CONTACT: " ++ (c ++ ('\n' :: (str "PROFESSIONAL SUMMARY: " ++ (s ++ ('\n' :: (str "SKILLS: " ++ (k ++ ('\n' :: str "WORK ")))))))))))) ++ (lowerS (str "EXPERIENCE: " ++ (e ++ ('\n' :: (str "EDUCATION: " ++ (d ++ str "\n")))))).take ((str "EXPERIENCE:").length - 1)) := by
    rw [show lowerS (str "EXPERIENCE:") = str "experience:" from rfl]
    rw [show (lowerS (str "EXPERIENCE: " ++ (e ++ ('\n' :: (str "EDUCATION: " ++ (d ++ str "\n")))))).take ((str "EXPERIENCE:").length - 1) = str "experience" from by
      rw [lowerS_append]; rfl]
    simp only [lowerS_append, lowerS_cons, lowerS_nil, low_name, low_contact, low_profsum,
      low_skills, low_work, lowerC_nl]
    rw [show (str "name: " ++ (lowerS n ++ ('\n' :: (str "contact: " ++ (lowerS c ++ ('\n' :: (str "professional summary: " ++ (lowerS s ++ ('\n' :: (str "skills: " ++ (lowerS k ++ ('\n' :: str "work ")))))))))))) ++ str "experience" = (str "name: " ++ (lowerS n ++ ('\n' :: (str "contact: " ++ (lowerS c ++ ('\n' :: (str "professional summary: " ++ (lowerS s ++ ('\n' :: (str "skills: " ++ (lowerS k ++ ('\n' :: (str "work " ++ str "experience"))))))))))))) from by
      simp [List.append_assoc, List.singleton_append]]
    refine not_infix_append_lastChar (by decide) ?_
      (lastChar_concrete (show (str "name: ").getLast? = some ' ' from rfl) (by decide))
    refine not_infix_append_headChar (hn.tokFree (str "experience:") (by decide))
      (not_infix_cons_nl (by decide) (by decide) ?_) (headChar_cons (by decide))
    refine not_infix_append_lastChar (by decide) ?_
      (lastChar_concrete (show (str "contact: ").getLast? = some ' ' from rfl) (by decide))
    refine not_infix_append_headChar (hc.tokFree (str "experience:") (by decide))
      (not_infix_cons_nl (by decide) (by decide) ?_) (headChar_cons (by decide))
    refine not_infix_append_lastChar (by decide) ?_
      (lastChar_concrete (show (str "professional summary: ").getLast? = some ' ' from rfl)
        (by decide))
    refine not_infix_append_headChar (hs.tokFree (str "experience:") (by decide))
      (not_infix_cons_nl (by decide) (by decide) ?_) (headChar_cons (by decide))
    refine not_infix_append_lastChar (by decide) ?_
      (lastChar_concrete (show (str "skills: ").getLast? = some ' ' from rfl) (by decide))
    exact not_infix_append_headChar (hk.tokFree (str "experience:") (by decide))
      (not_infix_cons_nl (by decide) (by decide) (by decide)) (headChar_cons (by decide))
  rw [getSecRaw_append _ _ hpre]
  have hcip : ciPrefixB (str "EXPERIENCE:") (str "EXPERIENCE: " ++ (e ++ ('\n' :: (str "EDUCATION: " ++ (d ++ str "\n"))))) = true := rfl
  rw [getSecRaw_hit hcip (append_ne_nil_left (by decide))]
  rw [show (str "EXPERIENCE: " ++ (e ++ ('\n' :: (str "EDUCATION: " ++ (d ++ str "\n"))))).drop (str "EXPERIENCE:").length
      = (' ' :: e) ++ ('\n' :: (str "EDUCATION: " ++ (d ++ str "\n"))) from rfl]
  rw [lazyScan_val_stop (oneLine_cons (by decide) he.oneLine) (lrc_education _)]
  show jsTrim (' ' :: e) = e
  exact jsTrim_capture (head_not_ws_of_trimmed he.trimmed) (last_not_ws_of_trimmed he.trimmed)


/-- The EDUCATION lookup on the languages-free renderer document: the
scan reaches the end of the text and the captured trailing newline is
trimmed away. -/
theorem getSection_EDUCATION_docNL {n c s k e d : Str} (hn : CleanVal n) (hc : CleanVal c)
    (hs : CleanVal s) (hk : CleanVal k) (he : CleanVal e) (hd : CleanVal d) :
    getSection (str "EDUCATION") (labeledDocNL n c s k e d) = d := by
  unfold getSection
  rw [show str "EDUCATION" ++ str ":" = str "EDUCATION:" from rfl]
  rw [show labeledDocNL n c s k e d = (str "NAME: " ++ (n ++ ('\n' :: (str "CONTACT: " ++ (c ++ ('\n' :: (str "PROFESSIONAL SUMMARY: " ++ (s ++ ('\n' :: (str "SKILLS: " ++ (k ++ ('\n' :: (str "WORK EXPERIENCE: " ++ (e ++ ['\n'])))))))))))))) ++ (str "EDUCATION: " ++ (d ++ str "\n")) from by
    unfold labeledDocNL
    simp [List.append_assoc, List.singleton_append]]
  have hpre : ¬ (lowerS (str "EDUCATION:") <:+:
      lowerS (str "NAME: " ++ (n ++ ('\n' :: (str "CONTACT: " ++ (c ++ ('\n' :: (str "PROFESSIONAL SUMMARY: " ++ (s ++ ('\n' :: (str "SKILLS: " ++ (k ++ ('\n' :: (str "WORK EXPERIENCE: " ++ (e ++ ['\n'])))))))))))))) ++ (lowerS (str "EDUCATION: " ++ (d ++ str "\n"))).take ((str "EDUCATION:").length - 1)) := by
    rw [show lowerS (str "EDUCATION:") = str "education:" from rfl]
    rw [show (lowerS (str "EDUCATION: " ++ (d ++ str "\n"))).take ((str "EDUCATION:").length - 1) = str "education" from by
      rw [lowerS_append]; rfl]
    simp only [lowerS_append, lowerS_cons, lowerS_nil, low_name, low_contact, low_profsum,
      low_skills, low_workexp, lowerC_nl]
    rw [show (str "name: " ++ (lowerS n ++ ('\n' :: (str "contact: " ++ (lowerS c ++ ('\n' :: (str "professional summary: " ++ (lowerS s ++ ('\n' :: (str "skills: " ++ (lowerS k ++ ('\n' :: (str "work experience: " ++ (lowerS e ++ ['\n'])))))))))))))) ++ str "education" = (str "name: " ++ (lowerS n ++ ('\n' :: (str "contact: " ++ (lowerS c ++ ('\n' :: (str "professional summary: " ++ (lowerS s ++ ('\n' :: (str "skills: " ++ (lowerS k ++ ('\n' :: (str "work experience: " ++ (lowerS e ++ ('\n' :: str "education"))))))))))))))) from by
      simp [List.append_assoc, List.singleton_append]]
    refine not_infix_append_lastChar (by decide) ?_
      (lastChar_concrete (show (str "name: ").getLast? = some ' ' from rfl) (by decide))
    refine not_infix_append_headChar (hn.tokFree (str "education:") (by decide))
      (not_infix_cons_nl (by decide) (by decide) ?_) (headChar_cons (by decide))
    refine not_infix_append_lastChar (by decide) ?_
      (lastChar_concrete (show (str "contact: ").getLast? = some ' ' from rfl) (by decide))
    refine not_infix_append_headChar (hc.tokFree (str "education:") (by decide))
      (not_infix_cons_nl (by decide) (by decide) ?_) (headChar_cons (by decide))
    refine not_infix_append_lastChar (by decide) ?_
      (lastChar_concrete (show (str "professional summary: ").getLast? = some ' ' from rfl)
        (by decide))
    refine not_infix_append_headChar (hs.tokFree (str "education:") (by decide))
      (not_infix_cons_nl (by decide) (by decide) ?_) (headChar_cons (by decide))
    refine not_infix_append_lastChar (by decide) ?_
      (lastChar_concrete (show (str "skills: ").getLast? = some ' ' from rfl) (by decide))
    refine not_infix_append_headChar (hk.tokFree (str "education:") (by decide))
      (not_infix_cons_nl (by decide) (by decide) ?_) (headChar_cons (by decide))
    refine not_infix_append_lastChar (by decide) ?_
      (lastChar_concrete (show (str "work experience: ").getLast? = some ' ' from rfl)
        (by decide))
    exact not_infix_append_headChar (he.tokFree (str "education:") (by decide))
      (not_infix_cons_nl (by decide) (by decide) (by decide)) (headChar_cons (by decide))
  rw [getSecRaw_append _ _ hpre]
  have hcip : ciPrefixB (str "EDUCATION:") (str "EDUCATION: " ++ (d ++ str "\n")) = true := rfl
  rw [getSecRaw_hit hcip (append_ne_nil_left (by decide))]
  rw [show (str "EDUCATION: " ++ (d ++ str "\n")).drop (str "EDUCATION:").length
      = (' ' :: d) ++ ['\n'] from rfl]
  rw [lazyScan_caps_through (oneLine_cons (by decide) hd.oneLine)]
  rw [show lazyScan capsLook ['\n'] = some ['\n'] from rfl]
  show trimR (trimL (' ' :: (d ++ ['\n']))) = d
  rw [trimL_cons_ws (by decide)]
  rw [trimL_eq_self (by
    rw [head?_append_of_ne_nil hd.ne]
    exact head_not_ws_of_trimmed hd.trimmed)]
  rw [trimR_append_nl, trimR_of_trimmed hd.trimmed]

/-! ## Claim C1 (amended) -/

/-- Claim C1 (amended): the re-extractor's vocabulary is NAME,
CONTACT, SUMMARY, EXPERIENCE, EDUCATION, SKILLS and does not match the
renderer's vocabulary exactly (PROFESSIONAL SUMMARY and WORK
EXPERIENCE only contain the lookup labels as substrings; LANGUAGES is
absent).  For a record whose values are non-empty, single-line,
trim-invariant and free of label tokens, the NAME, SUMMARY, EXPERIENCE
and EDUCATION lookups recover the written values verbatim, while the
CONTACT lookup returns the contact with the whole PROFESSIONAL SUMMARY
line appended and the SKILLS lookup returns the skills with the whole
WORK EXPERIENCE line appended, because those two renderer labels
contain a space and are not boundaries for the all-caps lookahead. -/
theorem C1_roundtrip_amended (n c s k e d l : Str) (hn : CleanVal n) (hc : CleanVal c)
    (hs : CleanVal s) (hk : CleanVal k) (he : CleanVal e) (hd : CleanVal d)
    (hl : CleanVal l) :
    getSection (str "NAME") (buildResume n c s k e d l) = n
    ∧ getSection (str "SUMMARY") (buildResume n c s k e d l) = s
    ∧ getSection (str "EXPERIENCE") (buildResume n c s k e d l) = e
    ∧ getSection (str "EDUCATION") (buildResume n c s k e d l) = d
    ∧ getSection (str "CONTACT") (buildResume n c s k e d l)
        = c ++ ('\n' :: (str "PROFESSIONAL SUMMARY: " ++ s))
    ∧ getSection (str "SKILLS") (buildResume n c s k e d l)
        = k ++ ('\n' :: (str "WORK EXPERIENCE: " ++ e))
    ∧ lowerS (str "PROFESSIONAL SUMMARY") ≠ lowerS (str "SUMMARY")
    ∧ lowerS (str "WORK EXPERIENCE") ≠ lowerS (str "EXPERIENCE") := by
  rw [buildResume_eq_labeledDoc hn.ne hc.ne hk.ne he.ne hd.ne hl.ne]
  exact ⟨getSection_NAME_doc hn, getSection_SUMMARY_doc hn hc hs,
    getSection_EXPERIENCE_doc hn hc hs hk he, getSection_EDUCATION_doc hn hc hs hk he hd,
    getSection_CONTACT_doc hn hc hs, getSection_SKILLS_doc hn hc hs hk he,
    by decide, by decide⟩

/-- Witness for the amended C1 at a concrete clean record. -/
theorem C1_roundtrip_amended_witness :
    getSection (str "CONTACT")
        (buildResume (str "Jane") (str "jane@x.co") (str "Builder.") (str "Go")
          (str "Built it") (str "BSc") (str "English"))
      = str "jane@x.co" ++ ('\n' :: (str "PROFESSIONAL SUMMARY: " ++ str "Builder.")) :=
  (C1_roundtrip_amended (str "Jane") (str "jane@x.co") (str "Builder.") (str "Go")
    (str "Built it") (str "BSc") (str "English")
    ⟨by decide, by decide, by decide, by decide⟩ ⟨by decide, by decide, by decide, by decide⟩
    ⟨by decide, by decide, by decide, by decide⟩ ⟨by decide, by decide, by decide, by decide⟩
    ⟨by decide, by decide, by decide, by decide⟩ ⟨by decide, by decide, by decide, by decide⟩
    ⟨by decide, by decide, by decide, by decide⟩).2.2.2.2.1

/-! ## Claim C2 (amended) -/

/-- Claim C2 (amended): for a record whose six values (name, contact,
summary, skills, experience, education) are non-empty, single-line,
trim-invariant and token-free — the languages value is arbitrary — the
rendered markup is the fixed template filled with the six recovered
values, and each of the six written values is a contiguous substring
of its template block (title and heading block for the name, contact
div for the contact, and the four section blocks). -/
theorem C2_containment_amended (n c s k e d l : Str) (hn : CleanVal n) (hc : CleanVal c)
    (hs : CleanVal s) (hk : CleanVal k) (he : CleanVal e) (hd : CleanVal d) :
    ∃ rn rc rs re rd rk : Str,
      renderHtmlFromAiText (buildResume n c s k e d l) = htmlShell rn rc rs re rd rk
      ∧ n <:+: titleBlk rn ∧ n <:+: h1Blk rn
      ∧ c <:+: contactBlk rc
      ∧ s <:+: sectionBlk (str "Professional Summary") rs
      ∧ e <:+: sectionBlk (str "Experience") re
      ∧ d <:+: sectionBlk (str "Education") rd
      ∧ k <:+: sectionBlk (str "Skills") rk := by
  refine ⟨n, c ++ ('\n' :: (str "PROFESSIONAL SUMMARY: " ++ s)), s, e, d,
    k ++ ('\n' :: (str "WORK EXPERIENCE: " ++ e)), ?_, ?_, ?_, ?_, ?_, ?_, ?_, ?_⟩
  · by_cases hl0 : l = []
    · subst hl0
      rw [buildResume_eq_labeledDocNL hn.ne hc.ne hk.ne he.ne hd.ne]
      simp only [renderHtmlFromAiText]
      rw [getSection_NAME_docNL hn, getSection_CONTACT_docNL hn hc hs,
        getSection_SUMMARY_docNL hn hc hs, getSection_EXPERIENCE_docNL hn hc hs hk he,
        getSection_EDUCATION_docNL hn hc hs hk he hd, getSection_SKILLS_docNL hn hc hs hk he,
        if_neg hn.ne]
    · rw [buildResume_eq_labeledDoc hn.ne hc.ne hk.ne he.ne hd.ne hl0]
      simp only [renderHtmlFromAiText]
      rw [getSection_NAME_doc hn, getSection_CONTACT_doc hn hc hs,
        getSection_SUMMARY_doc hn hc hs, getSection_EXPERIENCE_doc hn hc hs hk he,
        getSection_EDUCATION_doc hn hc hs hk he hd, getSection_SKILLS_doc hn hc hs hk he,
        if_neg hn.ne]
  · exact ⟨str "<title>", str " - Resume</title>", rfl⟩
  · exact ⟨str "<h1>", str "</h1>", rfl⟩
  · exact ⟨str "<div class=\"contact\">",
      ('\n' :: (str "PROFESSIONAL SUMMARY: " ++ s)) ++ str "</div>", by
        simp [contactBlk, List.append_assoc]⟩
  · exact ⟨str "<div class=\"section\"><h2>" ++ str "Professional Summary" ++ str "</h2><pre>",
      str "</pre></div>", by simp [sectionBlk, List.append_assoc]⟩
  · exact ⟨str "<div class=\"section\"><h2>" ++ str "Experience" ++ str "</h2><pre>",
      str "</pre></div>", by simp [sectionBlk, List.append_assoc]⟩
  · exact ⟨str "<div class=\"section\"><h2>" ++ str "Education" ++ str "</h2><pre>",
      str "</pre></div>", by simp [sectionBlk, List.append_assoc]⟩
  · exact ⟨str "<div class=\"section\"><h2>" ++ str "Skills" ++ str "</h2><pre>",
      ('\n' :: (str "WORK EXPERIENCE: " ++ e)) ++ str "</pre></div>", by
        simp [sectionBlk, List.append_assoc]⟩

/-- Witness for the amended C2 at a concrete clean record with an
empty languages value. -/
theorem C2_containment_amended_witness :
    ∃ rn rc rs re rd rk : Str,
      renderHtmlFromAiText
          (buildResume (str "Jane") (str "jane@x.co") (str "Builder.") (str "Go")
            (str "Built it") (str "BSc") [])
        = htmlShell rn rc rs re rd rk
      ∧ str "Jane" <:+: titleBlk rn ∧ str "Jane" <:+: h1Blk rn
      ∧ str "jane@x.co" <:+: contactBlk rc
      ∧ str "Builder." <:+: sectionBlk (str "Professional Summary") rs
      ∧ str "Built it" <:+: sectionBlk (str "Experience") re
      ∧ str "BSc" <:+: sectionBlk (str "Education") rd
      ∧ str "Go" <:+: sectionBlk (str "Skills") rk :=
  C2_containment_amended (str "Jane") (str "jane@x.co") (str "Builder.") (str "Go")
    (str "Built it") (str "BSc") []
    ⟨by decide, by decide, by decide, by decide⟩ ⟨by decide, by decide, by decide, by decide⟩
    ⟨by decide, by decide, by decide, by decide⟩ ⟨by decide, by decide, by decide, by decide⟩
    ⟨by decide, by decide, by decide, by decide⟩ ⟨by decide, by decide, by decide, by decide⟩

/-! ## Claim C9 -/

/-- Claim C9: the markup step looks up exactly the six labels NAME,
CONTACT, SUMMARY, EXPERIENCE, EDUCATION and SKILLS — never LANGUAGES —
so the rendered markup of a renderer document is the fixed template of
those six lookups, and a non-empty LANGUAGES section written by the
renderer receives no block: the markup does not depend on the
languages value at all. -/
theorem C9_languages_ignored (n c s k e d l1 l2 : Str) (hn : CleanVal n) (hc : CleanVal c)
    (hs : CleanVal s) (hk : CleanVal k) (he : CleanVal e) (hd : CleanVal d)
    (hl1 : CleanVal l1) (hl2 : CleanVal l2) :
    (∀ aiText : Str,
      renderHtmlFromAiText aiText
        = htmlShell
            (if getSection (str "NAME") aiText = [] then str "Applicant"
              else getSection (str "NAME") aiText)
            (getSection (str "CONTACT") aiText) (getSection (str "SUMMARY") aiText)
            (getSection (str "EXPERIENCE") aiText) (getSection (str "EDUCATION") aiText)
            (getSection (str "SKILLS") aiText))
    ∧ renderHtmlFromAiText (buildResume n c s k e d l1)
        = renderHtmlFromAiText (buildResume n c s k e d l2) := by
  constructor
  · intro aiText
    simp only [renderHtmlFromAiText]
  · rw [buildResume_eq_labeledDoc hn.ne hc.ne hk.ne he.ne hd.ne hl1.ne,
      buildResume_eq_labeledDoc hn.ne hc.ne hk.ne he.ne hd.ne hl2.ne]
    simp only [renderHtmlFromAiText]
    rw [getSection_NAME_doc hn, getSection_CONTACT_doc hn hc hs,
      getSection_SUMMARY_doc hn hc hs,
      getSection_EXPERIENCE_doc hn hc hs hk he,
      getSection_EDUCATION_doc hn hc hs hk he hd,
      getSection_SKILLS_doc hn hc hs hk he,
      getSection_NAME_doc (c := c) (s := s) (k := k) (e := e) (d := d) (l := l2) hn,
      getSection_CONTACT_doc (k := k) (e := e) (d := d) (l := l2) hn hc hs,
      getSection_SUMMARY_doc (k := k) (e := e) (d := d) (l := l2) hn hc hs,
      getSection_EXPERIENCE_doc (d := d) (l := l2) hn hc hs hk he,
      getSection_EDUCATION_doc (l := l2) hn hc hs hk he hd,
      getSection_SKILLS_doc (d := d) (l := l2) hn hc hs hk he]

/-- Witness for C9 with two different language values. -/
theorem C9_languages_ignored_witness :
    renderHtmlFromAiText
        (buildResume (str "Jane") (str "jane@x.co") (str "Builder.") (str "Go")
          (str "Built it") (str "BSc") (str "English"))
      = renderHtmlFromAiText
        (buildResume (str "Jane") (str "jane@x.co") (str "Builder.") (str "Go")
          (str "Built it") (str "BSc") (str "French, Hindi")) :=
  (C9_languages_ignored (str "Jane") (str "jane@x.co") (str "Builder.") (str "Go")
    (str "Built it") (str "BSc") (str "English") (str "French, Hindi")
    ⟨by decide, by decide, by decide, by decide⟩ ⟨by decide, by decide, by decide, by decide⟩
    ⟨by decide, by decide, by decide, by decide⟩ ⟨by decide, by decide, by decide, by decide⟩
    ⟨by decide, by decide, by decide, by decide⟩ ⟨by decide, by decide, by decide, by decide⟩
    ⟨by decide, by decide, by decide, by decide⟩ ⟨by decide, by decide, by decide, by decide⟩).2

end SmartResumeFix

namespace SmartResumeFix

/-! ## Label-presence machinery for the renderer output -/


theorem infix_of_infix_left {p x y : Str} (h : p <:+: x) : p <:+: x ++ y := by
  obtain ⟨s, t, hst⟩ := h
  exact ⟨s, t ++ y, by rw [← hst]; simp [List.append_assoc]⟩

theorem infix_of_infix_right {p x y : Str} (h : p <:+: y) : p <:+: x ++ y := by
  obtain ⟨s, t, hst⟩ := h
  exact ⟨x ++ s, t, by rw [← hst]; simp [List.append_assoc]⟩

/-- Straddling is impossible when no non-empty proper prefix of the
token is a suffix of the left part. -/
theorem not_infix_append_noOverlap {p a b : Str} (ha : ¬ p <:+: a) (hb : ¬ p <:+: b)
    (hov : ∀ i < p.length, 0 < i → ¬ (p.take i <:+ a)) : ¬ p <:+: a ++ b := by
  intro h
  rcases infix_split h with h | h | ⟨p₁, p₂, hp, h1, h2, hsuf, _⟩
  · exact ha h
  · exact hb h
  · have hlen : p₁.length < p.length := by
      rw [← hp, List.length_append]
      have h2' : 0 < p₂.length := List.length_pos.mpr h2
      omega
    have hpos : 0 < p₁.length := List.length_pos.mpr h1
    have htake : p.take p₁.length = p₁ := by
      rw [← hp, List.take_left]
    exact hov p₁.length hlen hpos (by rw [htake]; exact hsuf)

/-- A mandatory renderer line followed by the rest of the document. -/
theorem not_infix_lineSeg {p labStr v rest : Str} (hne : p ≠ []) (hnl : '\n' ∉ p)
    (hov : ∀ i < p.length, 0 < i → ¬ (p.take i <:+ labStr))
    (hlab : ¬ p <:+: labStr) (hv : ¬ p <:+: v) (hrest : ¬ p <:+: rest) :
    ¬ p <:+: (labStr ++ (v ++ ['\n'])) ++ rest := by
  rw [show (labStr ++ (v ++ ['\n'])) ++ rest = labStr ++ (v ++ ('\n' :: rest)) from by
    simp [List.append_assoc]]
  refine not_infix_append_noOverlap hlab ?_ hov
  exact not_infix_append_headChar hv (not_infix_cons_nl hne hnl hrest) (headChar_cons hnl)

/-- An optional renderer line followed by the rest of the document. -/
theorem not_infix_optSeg {p labStr v rest : Str} (hne : p ≠ []) (hnl : '\n' ∉ p)
    (hov : ∀ i < p.length, 0 < i → ¬ (p.take i <:+ labStr))
    (hlab : ¬ p <:+: labStr) (hv : ¬ p <:+: v) (hrest : ¬ p <:+: rest) :
    ¬ p <:+: (if v = [] then [] else labStr ++ (v ++ ['\n'])) ++ rest := by
  by_cases hv0 : v = []
  · simpa [hv0] using hrest
  · rw [if_neg hv0]
    exact not_infix_lineSeg hne hnl hov hlab hv hrest

/-- The last optional renderer line of the document. -/
theorem not_infix_optSeg_end {p labStr v : Str} (hne : p ≠ []) (hnl : '\n' ∉ p)
    (hov : ∀ i < p.length, 0 < i → ¬ (p.take i <:+ labStr))
    (hlab : ¬ p <:+: labStr) (hv : ¬ p <:+: v) :
    ¬ p <:+: (if v = [] then [] else labStr ++ (v ++ ['\n'])) := by
  by_cases hv0 : v = []
  · rw [if_pos hv0]
    intro h
    exact hne (List.infix_nil.mp h)
  · rw [if_neg hv0]
    refine not_infix_append_noOverlap hlab ?_ hov
    refine not_infix_append_headChar hv (not_infix_cons_nl hne hnl ?_) (headChar_cons hnl)
    intro h
    exact hne (List.infix_nil.mp h)

/-- The renderer output, re-associated into one segment per label. -/
theorem buildResume_shape (n c s k e d l : Str) :
    buildResume n c s k e d l
      = (str "NAME: " ++ ((if n = [] then str "Applicant" else n) ++ ['\n']))
        ++ ((if c = [] then [] else str "CONTACT: " ++ (c ++ ['\n']))
        ++ ((str "PROFESSIONAL SUMMARY: " ++ (s ++ ['\n']))
        ++ ((if k = [] then [] else str "SKILLS: " ++ (k ++ ['\n']))
        ++ ((if e = [] then [] else str "WORK EXPERIENCE: " ++ (e ++ ['\n']))
        ++ ((if d = [] then [] else str "EDUCATION: " ++ (d ++ ['\n']))
        ++ (if l = [] then [] else str "LANGUAGES: " ++ (l ++ ['\n']))))))) := by
  simp only [buildResume]
  split_ifs <;> simp [List.append_assoc, show str "\n" = ['\n'] from rfl]

end SmartResumeFix

namespace SmartResumeFix

/-- Optional segment, with the label hypotheses needed only when the
value is present. -/
theorem not_infix_optSeg2 {p labStr v rest : Str} (hne : p ≠ []) (hnl : '\n' ∉ p)
    (h : v ≠ [] →
      (∀ i < p.length, 0 < i → ¬ (p.take i <:+ labStr)) ∧
        (¬ p <:+: labStr) ∧ ¬ p <:+: v)
    (hrest : ¬ p <:+: rest) :
    ¬ p <:+: (if v = [] then [] else labStr ++ (v ++ ['\n'])) ++ rest := by
  by_cases hv0 : v = []
  · simpa [hv0] using hrest
  · obtain ⟨hov, hlab, hv⟩ := h hv0
    rw [if_neg hv0]
    exact not_infix_lineSeg hne hnl hov hlab hv hrest

/-- Last optional segment, with the label hypotheses needed only when
the value is present. -/
theorem not_infix_optSeg_end2 {p labStr v : Str} (hne : p ≠ []) (hnl : '\n' ∉ p)
    (h : v ≠ [] →
      (∀ i < p.length, 0 < i → ¬ (p.take i <:+ labStr)) ∧
        (¬ p <:+: labStr) ∧ ¬ p <:+: v) :
    ¬ p <:+: (if v = [] then [] else labStr ++ (v ++ ['\n'])) := by
  by_cases hv0 : v = []
  · rw [if_pos hv0]
    intro hx
    exact hne (List.infix_nil.mp hx)
  · obtain ⟨hov, hlab, hv⟩ := h hv0
    rw [if_neg hv0]
    refine not_infix_append_noOverlap hlab ?_ hov
    refine not_infix_append_headChar hv (not_infix_cons_nl hne hnl ?_) (headChar_cons hnl)
    intro hx
    exact hne (List.infix_nil.mp hx)

/-- A token not occurring in any present field value, nor in any label
head of a present segment, does not occur in the rendered document. -/
theorem token_absent {p n c s k e d l : Str}
    (hne : p ≠ []) (hnl : '\n' ∉ p) (happ : ¬ p <:+: str "Applicant")
    (hovN : ∀ i < p.length, 0 < i → ¬ (p.take i <:+ str "NAME: "))
    (hlabN : ¬ p <:+: str "NAME: ") (hn : ¬ p <:+: n)
    (hovS : ∀ i < p.length, 0 < i → ¬ (p.take i <:+ str "PROFESSIONAL SUMMARY: "))
    (hlabS : ¬ p <:+: str "PROFESSIONAL SUMMARY: ") (hs : ¬ p <:+: s)
    (hC : c ≠ [] →
      (∀ i < p.length, 0 < i → ¬ (p.take i <:+ str "CONTACT: ")) ∧
        (¬ p <:+: str "CONTACT: ") ∧ ¬ p <:+: c)
    (hK : k ≠ [] →
      (∀ i < p.length, 0 < i → ¬ (p.take i <:+ str "SKILLS: ")) ∧
        (¬ p <:+: str "SKILLS: ") ∧ ¬ p <:+: k)
    (hE : e ≠ [] →
      (∀ i < p.length, 0 < i → ¬ (p.take i <:+ str "WORK EXPERIENCE: ")) ∧
        (¬ p <:+: str "WORK EXPERIENCE: ") ∧ ¬ p <:+: e)
    (hD : d ≠ [] →
      (∀ i < p.length, 0 < i → ¬ (p.take i <:+ str "EDUCATION: ")) ∧
        (¬ p <:+: str "EDUCATION: ") ∧ ¬ p <:+: d)
    (hL : l ≠ [] →
      (∀ i < p.length, 0 < i → ¬ (p.take i <:+ str "LANGUAGES: ")) ∧
        (¬ p <:+: str "LANGUAGES: ") ∧ ¬ p <:+: l) :
    ¬ p <:+: buildResume n c s k e d l := by
  rw [buildResume_shape]
  have hnv : ¬ p <:+: (if n = [] then str "Applicant" else n) := by
    by_cases h0 : n = [] <;> simp [h0, happ, hn]
  refine not_infix_lineSeg hne hnl hovN hlabN hnv ?_
  refine not_infix_optSeg2 hne hnl hC ?_
  refine not_infix_lineSeg hne hnl hovS hlabS hs ?_
  refine not_infix_optSeg2 hne hnl hK ?_
  refine not_infix_optSeg2 hne hnl hE ?_
  refine not_infix_optSeg2 hne hnl hD ?_
  exact not_infix_optSeg_end2 hne hnl hL

end SmartResumeFix
namespace SmartResumeFix

/-- C7 (amended): the rendering step concatenates labeled lines in the
fixed order NAME, CONTACT, PROFESSIONAL SUMMARY, SKILLS, WORK
EXPERIENCE, EDUCATION, LANGUAGES; provided no field value contains a
renderer label token, each optional label (CONTACT, SKILLS, WORK
EXPERIENCE, EDUCATION, LANGUAGES) appears in the output iff its
underlying value is non-empty, and the NAME and PROFESSIONAL SUMMARY
labels always appear. -/
theorem C7_labels_amended (n c s k e d l : Str)
    (hn : OutTokenFree n) (hc : OutTokenFree c) (hs : OutTokenFree s)
    (hk : OutTokenFree k) (he : OutTokenFree e) (hd : OutTokenFree d)
    (hl : OutTokenFree l) :
    buildResume n c s k e d l
      = (str "NAME: " ++ ((if n = [] then str "Applicant" else n) ++ ['\n']))
        ++ ((if c = [] then [] else str "CONTACT: " ++ (c ++ ['\n']))
        ++ ((str "PROFESSIONAL SUMMARY: " ++ (s ++ ['\n']))
        ++ ((if k = [] then [] else str "SKILLS: " ++ (k ++ ['\n']))
        ++ ((if e = [] then [] else str "WORK EXPERIENCE: " ++ (e ++ ['\n']))
        ++ ((if d = [] then [] else str "EDUCATION: " ++ (d ++ ['\n']))
        ++ (if l = [] then [] else str "LANGUAGES: " ++ (l ++ ['\n'])))))))
    ∧ (str "NAME:" <:+: buildResume n c s k e d l)
    ∧ (str "PROFESSIONAL SUMMARY:" <:+: buildResume n c s k e d l)
    ∧ (str "CONTACT:" <:+: buildResume n c s k e d l ↔ c ≠ [])
    ∧ (str "SKILLS:" <:+: buildResume n c s k e d l ↔ k ≠ [])
    ∧ (str "WORK EXPERIENCE:" <:+: buildResume n c s k e d l ↔ e ≠ [])
    ∧ (str "EDUCATION:" <:+: buildResume n c s k e d l ↔ d ≠ [])
    ∧ (str "LANGUAGES:" <:+: buildResume n c s k e d l ↔ l ≠ []) := by
  refine ⟨buildResume_shape n c s k e d l, ?_, ?_, ?_, ?_, ?_, ?_, ?_⟩
  · rw [buildResume_shape]
    exact (((show (str "NAME:" : Str) <+: str "NAME: " by decide).trans
      (List.prefix_append _ _)).trans (List.prefix_append _ _)).isInfix
  · rw [buildResume_shape]
    refine infix_of_infix_right (infix_of_infix_right (infix_of_infix_left ?_))
    exact ((show (str "PROFESSIONAL SUMMARY:" : Str) <+: str "PROFESSIONAL SUMMARY: "
      by decide).trans (List.prefix_append _ _)).isInfix
  · constructor
    · intro hinf
      by_contra h0
      subst h0
      exact token_absent (by decide) (by decide) (by decide) (by decide) (by decide)
        (hn (str "CONTACT:") (by decide)) (by decide) (by decide)
        (hs (str "CONTACT:") (by decide))
        (fun hx => absurd rfl hx)
        (fun _ => ⟨by decide, by decide, hk (str "CONTACT:") (by decide)⟩)
        (fun _ => ⟨by decide, by decide, he (str "CONTACT:") (by decide)⟩)
        (fun _ => ⟨by decide, by decide, hd (str "CONTACT:") (by decide)⟩)
        (fun _ => ⟨by decide, by decide, hl (str "CONTACT:") (by decide)⟩) hinf
    · intro h0
      rw [buildResume_shape, if_neg h0]
      refine infix_of_infix_right (infix_of_infix_left ?_)
      exact ((show (str "CONTACT:" : Str) <+: str "CONTACT: " by decide).trans
        (List.prefix_append _ _)).isInfix
  · constructor
    · intro hinf
      by_contra h0
      subst h0
      exact token_absent (by decide) (by decide) (by decide) (by decide) (by decide)
        (hn (str "SKILLS:") (by decide)) (by decide) (by decide)
        (hs (str "SKILLS:") (by decide))
        (fun _ => ⟨by decide, by decide, hc (str "SKILLS:") (by decide)⟩)
        (fun hx => absurd rfl hx)
        (fun _ => ⟨by decide, by decide, he (str "SKILLS:") (by decide)⟩)
        (fun _ => ⟨by decide, by decide, hd (str "SKILLS:") (by decide)⟩)
        (fun _ => ⟨by decide, by decide, hl (str "SKILLS:") (by decide)⟩) hinf
    · intro h0
      rw [buildResume_shape, if_neg h0]
      refine infix_of_infix_right (infix_of_infix_right (infix_of_infix_right
        (infix_of_infix_left ?_)))
      exact ((show (str "SKILLS:" : Str) <+: str "SKILLS: " by decide).trans
        (List.prefix_append _ _)).isInfix
  · constructor
    · intro hinf
      by_contra h0
      subst h0
      exact token_absent (by decide) (by decide) (by decide) (by decide) (by decide)
        (hn (str "WORK EXPERIENCE:") (by decide)) (by decide) (by decide)
        (hs (str "WORK EXPERIENCE:") (by decide))
        (fun _ => ⟨by decide, by decide, hc (str "WORK EXPERIENCE:") (by decide)⟩)
        (fun _ => ⟨by decide, by decide, hk (str "WORK EXPERIENCE:") (by decide)⟩)
        (fun hx => absurd rfl hx)
        (fun _ => ⟨by decide, by decide, hd (str "WORK EXPERIENCE:") (by decide)⟩)
        (fun _ => ⟨by decide, by decide, hl (str "WORK EXPERIENCE:") (by decide)⟩) hinf
    · intro h0
      rw [buildResume_shape, if_neg h0]
      refine infix_of_infix_right (infix_of_infix_right (infix_of_infix_right
        (infix_of_infix_right (infix_of_infix_left ?_))))
      exact ((show (str "WORK EXPERIENCE:" : Str) <+: str "WORK EXPERIENCE: "
        by decide).trans (List.prefix_append _ _)).isInfix
  · constructor
    · intro hinf
      by_contra h0
      subst h0
      exact token_absent (by decide) (by decide) (by decide) (by decide) (by decide)
        (hn (str "EDUCATION:") (by decide)) (by decide) (by decide)
        (hs (str "EDUCATION:") (by decide))
        (fun _ => ⟨by decide, by decide, hc (str "EDUCATION:") (by decide)⟩)
        (fun _ => ⟨by decide, by decide, hk (str "EDUCATION:") (by decide)⟩)
        (fun _ => ⟨by decide, by decide, he (str "EDUCATION:") (by decide)⟩)
        (fun hx => absurd rfl hx)
        (fun _ => ⟨by decide, by decide, hl (str "EDUCATION:") (by decide)⟩) hinf
    · intro h0
      rw [buildResume_shape, if_neg h0]
      refine infix_of_infix_right (infix_of_infix_right (infix_of_infix_right
        (infix_of_infix_right (infix_of_infix_right (infix_of_infix_left ?_)))))
      exact ((show (str "EDUCATION:" : Str) <+: str "EDUCATION: " by decide).trans
        (List.prefix_append _ _)).isInfix
  · constructor
    · intro hinf
      by_contra h0
      subst h0
      exact token_absent (by decide) (by decide) (by decide) (by decide) (by decide)
        (hn (str "LANGUAGES:") (by decide)) (by decide) (by decide)
        (hs (str "LANGUAGES:") (by decide))
        (fun _ => ⟨by decide, by decide, hc (str "LANGUAGES:") (by decide)⟩)
        (fun _ => ⟨by decide, by decide, hk (str "LANGUAGES:") (by decide)⟩)
        (fun _ => ⟨by decide, by decide, he (str "LANGUAGES:") (by decide)⟩)
        (fun _ => ⟨by decide, by decide, hd (str "LANGUAGES:") (by decide)⟩)
        (fun hx => absurd rfl hx) hinf
    · intro h0
      rw [buildResume_shape, if_neg h0]
      refine infix_of_infix_right (infix_of_infix_right (infix_of_infix_right
        (infix_of_infix_right (infix_of_infix_right (infix_of_infix_right ?_)))))
      exact ((show (str "LANGUAGES:" : Str) <+: str "LANGUAGES: " by decide).trans
        (List.prefix_append _ _)).isInfix

/-- C7 witness: concrete fields with a present contact and an absent
languages value. -/
theorem C7_labels_amended_witness :
    OutTokenFree (str "Jane Doe") ∧
    (str "CONTACT:" <:+:
        buildResume (str "Jane Doe") (str "j@x.com") (str "Sum") (str "Go")
          (str "Acme") (str "BSc") [] ↔ (str "j@x.com" : Str) ≠ []) ∧
    (str "LANGUAGES:" <:+:
        buildResume (str "Jane Doe") (str "j@x.com") (str "Sum") (str "Go")
          (str "Acme") (str "BSc") [] ↔ ([] : Str) ≠ []) := by
  refine ⟨by decide, ?_, ?_⟩
  · exact (C7_labels_amended (str "Jane Doe") (str "j@x.com") (str "Sum") (str "Go")
      (str "Acme") (str "BSc") [] (by decide) (by decide) (by decide) (by decide)
      (by decide) (by decide) (by decide)).2.2.2.1
  · exact (C7_labels_amended (str "Jane Doe") (str "j@x.com") (str "Sum") (str "Go")
      (str "Acme") (str "BSc") [] (by decide) (by decide) (by decide) (by decide)
      (by decide) (by decide) (by decide)).2.2.2.2.2.2.2

end SmartResumeFix

namespace SmartResumeFix

theorem infix_cons_of_tail {p X : Str} (c : Char) (h : p <:+: X) : p <:+: c :: X := by
  obtain ⟨s, t, hst⟩ := h
  exact ⟨c :: s, t, by simp [← hst]⟩

/-- Letters are terminators for none of the name matcher's classes. -/
theorem letter_facts {c : Char} (h : isLetterB c = true) :
    isWCB c = false ∧ (c == '\n') = false ∧ (c == ',') = false ∧
      isWSB c = false ∧ isNameClassB c = true := by
  have ne : ∀ d : Char, isLetterB d = false → c ≠ d := by
    intro d hd hcd
    rw [hcd, hd] at h
    exact Bool.false_ne_true h
  have f : ∀ d : Char, isLetterB d = false → (c == d) = false :=
    fun d hd => beq_eq_false_iff_ne.mpr (ne d hd)
  have hws : isWSB c = false := by
    simp only [isWSB, f ' ' (by decide), f '\t' (by decide), f '\n' (by decide),
      f '\r' (by decide), f '\x0b' (by decide), f '\x0c' (by decide), Bool.or_self]
  refine ⟨?_, f '\n' (by decide), f ',' (by decide), hws, ?_⟩
  · simp [isWCB, hws, f ':' (by decide)]
  · simp [isNameClassB, h]

/-- The lazy name capture runs through letters and spaces and stops at
the first newline. -/
theorem nameCapGo_through (t rest : Str)
    (h : ∀ ch ∈ t, isLetterB ch = true ∨ ch = ' ') :
    nameCapGo (t ++ '\n' :: rest) = some t := by
  induction t with
  | nil => rfl
  | cons c cs ih =>
    have hc := h c (List.mem_cons_self c cs)
    have h1 : (c == '\n' || c == ',') = false := by
      rcases hc with hl | rfl
      · simp [(letter_facts hl).2.1, (letter_facts hl).2.2.1]
      · decide
    have h2 : isNameClassB c = true := by
      rcases hc with hl | rfl
      · exact (letter_facts hl).2.2.2.2
      · decide
    simp [List.cons_append, nameCapGo, h1, h2,
      ih (fun ch hch => h ch (List.mem_cons_of_mem c hch))]

theorem nameBack_hit (cs : Str) (t : Nat) (cap : Str)
    (h : nameCapScan (cs.drop (t + 1)) = some cap) : nameBack cs (t + 1) = some cap := by
  simp [nameBack, h]

theorem nameSearch_hit (c : Char) (rst cap : Str)
    (hpre : (prefixB (str "Name") (c :: rst) || prefixB (str "name") (c :: rst)) = true)
    (h : nameAttempt (rst.drop 3) = some cap) :
    nameSearch (c :: rst) = some cap := by
  simp [nameSearch, hpre, h]

/-- One attempt of the name regex tail after the label, on `": "`
followed by a well-formed name and a newline. -/
theorem nameAttempt_colon_space (nm rest : Str) (hne : nm ≠ [])
    (hcl : ∀ ch ∈ nm, isLetterB ch = true ∨ ch = ' ') (htr : jsTrim nm = nm) :
    nameAttempt (str ": " ++ (nm ++ '\n' :: rest)) = some nm := by
  obtain ⟨h0, t0, rfl⟩ := List.exists_cons_of_ne_nil hne
  have hh0 : isLetterB h0 = true := by
    rcases hcl h0 (List.mem_cons_self h0 t0) with hl | rfl
    · exact hl
    · exact absurd (head_not_ws_of_trimmed htr ' ' rfl) (by decide)
  have hcap : nameCapScan ((h0 :: t0) ++ '\n' :: rest) = some (h0 :: t0) := by
    have hgo := nameCapGo_through t0 rest
      (fun ch hch => hcl ch (List.mem_cons_of_mem h0 hch))
    simp [List.cons_append, nameCapScan, (letter_facts hh0).2.2.2.2, hgo]
  have w1 : isWCB ':' = true := rfl
  have w2 : isWCB ' ' = true := rfl
  have hrl : runLen isWCB (str ": " ++ ((h0 :: t0) ++ '\n' :: rest)) = 2 := by
    show runLen isWCB (':' :: ' ' :: ((h0 :: t0) ++ '\n' :: rest)) = 2
    simp [runLen, List.cons_append, w1, w2, (letter_facts hh0).1]
  show nameBack (str ": " ++ ((h0 :: t0) ++ '\n' :: rest))
    (runLen isWCB (str ": " ++ ((h0 :: t0) ++ '\n' :: rest))) = some (h0 :: t0)
  rw [hrl]
  exact nameBack_hit _ _ _ hcap

/-- Leftmost-failure of the name matcher when neither label spelling
occurs anywhere. -/
theorem nameSearch_none {text : Str} (h1 : ¬ str "Name" <:+: text)
    (h2 : ¬ str "name" <:+: text) : nameSearch text = none := by
  induction text with
  | nil => rfl
  | cons c rest ih =>
    have hp1 : prefixB (str "Name") (c :: rest) = false := by
      cases hp : prefixB (str "Name") (c :: rest)
      · rfl
      · exact absurd (prefixB_iff.mp hp).isInfix h1
    have hp2 : prefixB (str "name") (c :: rest) = false := by
      cases hp : prefixB (str "name") (c :: rest)
      · rfl
      · exact absurd (prefixB_iff.mp hp).isInfix h2
    simp only [nameSearch, hp1, hp2, Bool.or_self, Bool.false_eq_true, if_false]
    exact ih (fun hi => h1 (infix_cons_of_tail c hi))
      (fun hi => h2 (infix_cons_of_tail c hi))

theorem extractName_default {text : Str} (h1 : ¬ str "Name" <:+: text)
    (h2 : ¬ str "name" <:+: text) : extractName text = str "Applicant" := by
  simp [extractName, nameSearch_none h1 h2]

theorem emailMatchAt_none {cs : Str} (h : '@' ∉ cs) : emailMatchAt cs = none := by
  simp only [emailMatchAt]
  by_cases hlr : runLen isLocalB cs = 0
  · simp [hlr]
  · rw [if_neg hlr]
    have hcond : ¬ ((cs.drop (runLen isLocalB cs)).head? = some '@') := by
      intro hd
      cases hds : cs.drop (runLen isLocalB cs) with
      | nil => rw [hds] at hd; exact Option.noConfusion hd
      | cons x xs =>
        rw [hds] at hd
        have hx : x = '@' := Option.some.inj hd
        have hmem : '@' ∈ cs.drop (runLen isLocalB cs) := by
          rw [hds, ← hx]
          exact List.mem_cons_self x xs
        have hsuf : cs.drop (runLen isLocalB cs) <:+ cs :=
          ⟨cs.take (runLen isLocalB cs), List.take_append_drop _ _⟩
        exact h (List.IsSuffix.subset hsuf hmem)
    rw [if_neg hcond]

theorem emailSearch_none {text : Str} (h : '@' ∉ text) : emailSearch text = none := by
  induction text with
  | nil => rfl
  | cons c rest ih =>
    simp [emailSearch, emailMatchAt_none h,
      ih (fun hm => h (List.mem_cons_of_mem c hm))]

theorem runLen_eq_zero {p : Char → Bool} {s : Str} (h : ∀ ch ∈ s, p ch = false) :
    runLen p s = 0 := by
  cases s with
  | nil => rfl
  | cons c rest => simp [runLen, h c (List.mem_cons_self c rest)]

theorem digOpts_nil {s : Str} (mx : Nat) (h : runLen isDigitB s = 0) :
    digOpts s mx = [] := by
  simp [digOpts, h]

theorem phoneMatchAt_none {cs : Str} (h : ∀ ch ∈ cs, isDigitB ch = false) :
    phoneMatchAt cs = none := by
  cases cs with
  | nil => rfl
  | cons c rest =>
    have hrest : ∀ ch ∈ rest, isDigitB ch = false :=
      fun ch hch => h ch (List.mem_cons_of_mem c hch)
    have h1 : digOpts rest 3 = [] := digOpts_nil 3 (runLen_eq_zero hrest)
    have h2 : digOpts (c :: rest) 3 = [] := digOpts_nil 3 (runLen_eq_zero h)
    by_cases hc : c = '+'
    · subst hc
      simp [phoneMatchAt, plusOpts, h1, h2]
    · simp [phoneMatchAt, plusOpts, hc, h2]

theorem phoneSearch_none {text : Str} (h : ∀ ch ∈ text, isDigitB ch = false) :
    phoneSearch text = none := by
  induction text with
  | nil => rfl
  | cons c rest ih =>
    simp [phoneSearch, phoneMatchAt_none h,
      ih (fun ch hch => h ch (List.mem_cons_of_mem c hch))]

theorem extractContact_empty {text : Str} (hat : '@' ∉ text)
    (hdig : ∀ ch ∈ text, isDigitB ch = false) : extractContact text = [] := by
  simp [extractContact, emailSearch_none hat, phoneSearch_none hdig]

/-- Positive case of the name matcher for the spelling `Name`. -/
theorem extractName_pos_Name (nm rest : Str) (hne : nm ≠ [])
    (hcl : ∀ ch ∈ nm, isLetterB ch = true ∨ ch = ' ') (htr : jsTrim nm = nm) :
    extractName (str "Name: " ++ (nm ++ '\n' :: rest)) = nm := by
  have key : nameSearch (str "Name: " ++ (nm ++ '\n' :: rest)) = some nm := by
    refine nameSearch_hit 'N' (str "ame: " ++ (nm ++ '\n' :: rest)) nm rfl ?_
    exact nameAttempt_colon_space nm rest hne hcl htr
  simp [extractName, key, hne, htr]

/-- Positive case of the name matcher for the spelling `name`. -/
theorem extractName_pos_name (nm rest : Str) (hne : nm ≠ [])
    (hcl : ∀ ch ∈ nm, isLetterB ch = true ∨ ch = ' ') (htr : jsTrim nm = nm) :
    extractName (str "name: " ++ (nm ++ '\n' :: rest)) = nm := by
  have key : nameSearch (str "name: " ++ (nm ++ '\n' :: rest)) = some nm := by
    refine nameSearch_hit 'n' (str "ame: " ++ (nm ++ '\n' :: rest)) nm rfl ?_
    exact nameAttempt_colon_space nm rest hne hcl htr
  simp [extractName, key, hne, htr]

end SmartResumeFix

namespace SmartResumeFix

/-- C5 (amended): name extraction matches only the literal label
spellings `Name` and `name` (the alternation is case sensitive, so
`NAME:` does not match), capturing the following line fragment,
trimmed; with no such label anywhere the name is the literal default
`Applicant`, and with additionally no email/phone characters the
contact is empty. -/
theorem C5_name_amended (text nm rest : Str)
    (hno1 : ¬ str "Name" <:+: text) (hno2 : ¬ str "name" <:+: text)
    (hat : '@' ∉ text) (hdig : ∀ ch ∈ text, isDigitB ch = false)
    (hne : nm ≠ []) (hcl : ∀ ch ∈ nm, isLetterB ch = true ∨ ch = ' ')
    (htr : jsTrim nm = nm) :
    extractName text = str "Applicant"
    ∧ extractContact text = []
    ∧ extractName (str "Name: " ++ (nm ++ '\n' :: rest)) = nm
    ∧ extractName (str "name: " ++ (nm ++ '\n' :: rest)) = nm :=
  ⟨extractName_default hno1 hno2, extractContact_empty hat hdig,
    extractName_pos_Name nm rest hne hcl htr,
    extractName_pos_name nm rest hne hcl htr⟩

/-- C5 witness: a label-free input and a concrete labeled name. -/
theorem C5_name_amended_witness :
    (¬ str "Name" <:+: str "hello") ∧ jsTrim (str "John Smith") = str "John Smith" ∧
    extractName (str "hello") = str "Applicant" ∧
    extractContact (str "hello") = [] ∧
    extractName (str "Name: " ++ (str "John Smith" ++ '\n' :: str "x")) = str "John Smith" ∧
    extractName (str "name: " ++ (str "John Smith" ++ '\n' :: str "x")) = str "John Smith" := by
  have h := C5_name_amended (str "hello") (str "John Smith") (str "x")
    (by decide) (by decide) (by decide) (by decide) (by decide) (by decide) (by decide)
  exact ⟨by decide, by decide, h.1, h.2.1, h.2.2.1, h.2.2.2⟩

end SmartResumeFix

namespace SmartResumeFix

/-! ## Scan lemmas for the section lookahead -/

theorem lazyScan_stop_cons_ne (stops : List Str) {c : Char} {l : Str} (hc : c ≠ '\n') :
    lazyScan (stopLookFor stops) (c :: l)
      = (lazyScan (stopLookFor stops) l).map (c :: ·) := by
  simp [lazyScan, stopLookFor, hc]

theorem lazyScan_stop_through (stops : List Str) (v rest : Str)
    (hv : ∀ c ∈ v, c ≠ '\n') :
    lazyScan (stopLookFor stops) (v ++ rest)
      = (lazyScan (stopLookFor stops) rest).map (v ++ ·) := by
  induction v with
  | nil => cases h : lazyScan (stopLookFor stops) rest <;> simp [h]
  | cons c vs ih =>
    have hc : c ≠ '\n' := hv c (List.mem_cons_self c vs)
    rw [List.cons_append, lazyScan_stop_cons_ne stops hc,
      ih (fun x hx => hv x (List.mem_cons_of_mem c hx))]
    cases lazyScan (stopLookFor stops) rest <;> simp

theorem lazyScan_stop_none (stops : List Str) {cs : Str} (h : '\n' ∉ cs) :
    lazyScan (stopLookFor stops) cs = none := by
  induction cs with
  | nil => rfl
  | cons c rest ih =>
    have hc : c ≠ '\n' := fun he => h (he ▸ List.mem_cons_self c rest)
    rw [lazyScan_stop_cons_ne stops hc, ih (fun hm => h (List.mem_cons_of_mem c hm))]
    rfl

theorem secBack_stop_none (stops : List Str) {cs : Str} (h : '\n' ∉ cs) (t : Nat) :
    secBack (stopLookFor stops) cs t = none := by
  induction t with
  | zero => exact lazyScan_stop_none stops h
  | succ t ih =>
    have hd : '\n' ∉ cs.drop (t + 1) := fun hm =>
      h (List.IsSuffix.subset ⟨cs.take (t + 1), List.take_append_drop _ _⟩ hm)
    simp [secBack, lazyScan_stop_none stops hd, ih]

/-- A text with no newline at all satisfies no section lookahead, so
the section search fails everywhere. -/
theorem secSearch_stop_none (labs stops : List Str) {text : Str} (h : '\n' ∉ text) :
    secSearch labs (stopLookFor stops) text = none := by
  induction text with
  | nil => rfl
  | cons c rest ih =>
    have hrest : '\n' ∉ rest := fun hm => h (List.mem_cons_of_mem c hm)
    cases hf : labs.findSome? (fun lab =>
        if ciPrefixB lab (c :: rest) then some lab.length else none) with
    | none => simp [secSearch, hf, ih hrest]
    | some n =>
      have hd : '\n' ∉ (c :: rest).drop n := fun hm =>
        h (List.IsSuffix.subset ⟨(c :: rest).take n, List.take_append_drop _ _⟩ hm)
      have hatt : secAttempt (stopLookFor stops) ((c :: rest).drop n) = none :=
        secBack_stop_none stops hd _
      simp [secSearch, hf, hatt, ih hrest]

/-- Without a trailing newline the skills section yields nothing. -/
theorem extractSkills_no_nl {t : Str} (h : '\n' ∉ t) :
    extractSkillsList t = [] ∧ extractSkills t = [] := by
  have hs := secSearch_stop_none [str "Skills"] skillsStops h
  have h1 : extractSkillsList t = [] := by
    simp only [extractSkillsList, hs]
    rfl
  refine ⟨h1, ?_⟩
  simp only [extractSkills, h1]
  rfl

theorem secBack_hit (look : Str → Bool) (cs : Str) (t : Nat) (r : Str)
    (h : lazyScan look (cs.drop (t + 1)) = some r) : secBack look cs (t + 1) = some r := by
  simp [secBack, h]

theorem secSearch_hit (labs : List Str) (look : Str → Bool) (c : Char)
    (rst raw : Str) (n : Nat)
    (hf : labs.findSome? (fun lab =>
        if ciPrefixB lab (c :: rst) then some lab.length else none) = some n)
    (h : secAttempt look ((c :: rst).drop n) = some raw) :
    secSearch labs look (c :: rst) = some raw := by
  simp [secSearch, hf, h]

/-- The raw skills capture of a single-line skills value closed by a
newline at end of text. -/
theorem skillsRaw_pos (s₀ : Str) (hnl : '\n' ∉ s₀) (hne : s₀ ≠ [])
    (hhd : ∀ c ∈ s₀.take 1, isWCB c = false) :
    secSearch [str "Skills"] (stopLookFor skillsStops)
      (str "Skills: " ++ (s₀ ++ ['\n'])) = some s₀ := by
  obtain ⟨h0, t0, rfl⟩ := List.exists_cons_of_ne_nil hne
  have hw : isWCB h0 = false := hhd h0 (by simp)
  have w1 : isWCB ':' = true := rfl
  have w2 : isWCB ' ' = true := rfl
  have hrl : runLen isWCB (str ": " ++ ((h0 :: t0) ++ ['\n'])) = 2 := by
    show runLen isWCB (':' :: ' ' :: ((h0 :: t0) ++ ['\n'])) = 2
    simp [runLen, List.cons_append, w1, w2, hw]
  have hscan : lazyScan (stopLookFor skillsStops) ((h0 :: t0) ++ ['\n'])
      = some (h0 :: t0) := by
    rw [lazyScan_stop_through skillsStops (h0 :: t0) ['\n']
      (fun c hc he => hnl (he ▸ hc))]
    simp [lazyScan, stopLookFor]
  have hatt : secAttempt (stopLookFor skillsStops)
      (str ": " ++ ((h0 :: t0) ++ ['\n'])) = some (h0 :: t0) := by
    show secBack (stopLookFor skillsStops) (str ": " ++ ((h0 :: t0) ++ ['\n']))
      (runLen isWCB (str ": " ++ ((h0 :: t0) ++ ['\n']))) = some (h0 :: t0)
    rw [hrl]
    exact secBack_hit _ _ 1 _ hscan
  exact secSearch_hit [str "Skills"] (stopLookFor skillsStops) 'S'
    (str "kills: " ++ ((h0 :: t0) ++ ['\n'])) (h0 :: t0) 6 rfl hatt

end SmartResumeFix

namespace SmartResumeFix

/-- C6 (amended): with the skills section closed by a newline, the
extracted entries are the capture split on commas/semicolons/newlines,
trimmed, empty entries dropped and truncated to the first 12, joined
with a bullet separator; without any newline the end-of-text
alternative of the lookahead cannot apply and the skills value is
empty. -/
theorem C6_skills_amended (s₀ t : Str) (hnl : '\n' ∉ s₀) (hne : s₀ ≠ [])
    (hhd : ∀ c ∈ s₀.take 1, isWCB c = false) (ht : '\n' ∉ t) :
    extractSkillsList (str "Skills: " ++ (s₀ ++ ['\n']))
      = ((((splitAny (fun c => c == ',' || c == ';' || c == '\n') s₀).map jsTrim).filter
          (fun s => !s.isEmpty)).take 12)
    ∧ extractSkills (str "Skills: " ++ (s₀ ++ ['\n']))
      = List.intercalate (str "\n• ")
          ((((splitAny (fun c => c == ',' || c == ';' || c == '\n') s₀).map jsTrim).filter
            (fun s => !s.isEmpty)).take 12)
    ∧ extractSkills t = [] := by
  have hraw := skillsRaw_pos s₀ hnl hne hhd
  have h1 : extractSkillsList (str "Skills: " ++ (s₀ ++ ['\n']))
      = ((((splitAny (fun c => c == ',' || c == ';' || c == '\n') s₀).map jsTrim).filter
          (fun s => !s.isEmpty)).take 12) := by
    simp only [extractSkillsList, hraw, Option.getD_some]
  refine ⟨h1, ?_, (extractSkills_no_nl ht).2⟩
  simp only [extractSkills, h1]

/-- C6 witness: twenty comma-separated skills keep exactly twelve
entries, and a skills section without a trailing newline yields an
empty skills value. -/
theorem C6_skills_amended_witness :
    ((str "aa, ab, ac, ad, ae, af, ag, ah, ai, aj, ak, al, am, an, ao, ap, aq, ar, az, at" : Str) ≠ [])
    ∧ (extractSkillsList (str "Skills: "
        ++ (str "aa, ab, ac, ad, ae, af, ag, ah, ai, aj, ak, al, am, an, ao, ap, aq, ar, az, at"
          ++ ['\n']))).length = 12
    ∧ extractSkills (str "Skills: Python, Go") = [] := by
  have h := C6_skills_amended
    (str "aa, ab, ac, ad, ae, af, ag, ah, ai, aj, ak, al, am, an, ao, ap, aq, ar, az, at")
    (str "Skills: Python, Go") (by decide) (by decide) (by decide) (by decide)
  refine ⟨by decide, ?_, h.2.2⟩
  rw [h.1]
  decide

end SmartResumeFix
